import Mathlib

/-!
Verification of the Amalgam evaluation-engine specification against the
repository sources `src/src/Amalgam/AssetManager.cpp` and
`src/src/Amalgam/interpreter/Interpreter.cpp`.

Each C++ function relevant to the frozen claims is shallowly embedded as an
executable Lean definition; machine integers become `Nat`/`Int` with explicit
`% 2^32` where overflow matters, doubles become an inductive with an explicit
NaN, pointers become `Option`-valued identifiers, and the heap of
`EvaluableNodeManager` becomes an explicit allocation state.
-/

set_option autoImplicit false

namespace AmalgamSpec

/- ## Version validation (`AssetManager::ValidateVersionAgainstAmalgam`) -/

/-- Modelled from the spec: `StringManipulation::Split` is not under `src/`;
it is modelled with the standard split-on-separator-character semantics
(empty segments are kept, a string with no separator yields one segment). -/
def splitCharAux (c : Char) : List Char → List Char → List String
  | [], acc => [String.mk acc.reverse]
  | d :: rest, acc =>
      if d = c then String.mk acc.reverse :: splitCharAux c rest []
      else splitCharAux c rest (d :: acc)

/-- Split a string on a separator character, keeping empty segments. -/
def splitChar (s : String) (c : Char) : List String :=
  splitCharAux c s.data []

/-- Value of a run of decimal digits, most significant first. -/
def atoiDigits (l : List Char) : Nat :=
  l.foldl (fun a c => 10 * a + (c.toNat - 48)) 0

/-- Modelled from the spec: the C standard library `atoi` used by
`ValidateVersionAgainstAmalgam` is not part of the repository; it is modelled
with its standard semantics (skip leading whitespace, optional sign, then the
longest run of decimal digits; `0` when there are no digits). -/
def atoi (s : String) : Int :=
  let t := s.data.dropWhile (fun ch =>
    ch = ' ' ∨ ch = '\t' ∨ ch = '\n' ∨ ch = '\r' ∨ ch = '\x0b' ∨ ch = '\x0c')
  match t with
  | '-' :: rest => - (atoiDigits (rest.takeWhile Char.isDigit) : Int)
  | '+' :: rest => (atoiDigits (rest.takeWhile Char.isDigit) : Int)
  | _ => (atoiDigits (t.takeWhile Char.isDigit) : Int)

/-- Conversion of an `int` to `uint32_t`, as in `uint32_t major = atoi(...)`. -/
def u32ofInt (i : Int) : Nat :=
  (i % (2 ^ 32 : Int)).toNat

/-- The engine's compile-time version constants `AMALGAM_VERSION_MAJOR`,
`AMALGAM_VERSION_MINOR`, `AMALGAM_VERSION_PATCH` and
`AMALGAM_VERSION_SUFFIX` (defined in `AmalgamVersion.h`, outside `src/`),
kept abstract as parameters. -/
structure EngineVersion where
  major : Nat
  minor : Nat
  patch : Nat
  suffix : String

/-- `StringManipulation::Split(StringManipulation::Split(version, '-')[0], '.')`:
the dot-separated fields of the version string, ignoring the postfix. -/
def versionSplit (version : String) : List String :=
  splitChar ((splitChar version '-').headD "") '.'

/-- Embedding of `AssetManager::ValidateVersionAgainstAmalgam`
(`AssetManager.cpp` lines 322-353): split the version string on `-`, split the
part before the suffix on `.`, require exactly three fields, parse them with
`atoi` into `uint32_t`, skip the comparison for development builds (non-empty
engine suffix, or an all-zero engine version), otherwise fail when the loaded
version is strictly newer or its major version is older than the engine's. -/
def validateVersionAgainstAmalgam (ev : EngineVersion) (version : String) :
    String × Bool :=
  match versionSplit version with
  | [ms, ns, ps] =>
      let major := u32ofInt (atoi ms)
      let minor := u32ofInt (atoi ns)
      let patch := u32ofInt (atoi ps)
      if ev.suffix ≠ "" ∨ (ev.major = 0 ∧ ev.minor = 0 ∧ ev.patch = 0) then
        ("", true)
      else if (ev.major < major) ∨ (major = ev.major ∧ ev.minor < minor)
          ∨ (major = ev.major ∧ minor = ev.minor ∧ ev.patch < patch) then
        ("Parsing Amalgam that is more recent than the current version is not supported", false)
      else if major < ev.major then
        ("Parsing Amalgam that is older than the current major version is not supported", false)
      else
        ("", true)
  | _ => ("Invalid version number", false)

/-- The loaded `(major, minor, patch)` triple exactly as
`ValidateVersionAgainstAmalgam` parses it, or `none` when the version string
does not have exactly three dot-separated fields before the suffix. -/
def parsedVersion (version : String) : Option (Nat × Nat × Nat) :=
  match versionSplit version with
  | [ms, ns, ps] => some (u32ofInt (atoi ms), u32ofInt (atoi ns), u32ofInt (atoi ps))
  | _ => none

/-- The development-build condition actually tested by the code: a non-empty
engine version suffix, or all three engine version fields zero. -/
def isDevBuild (ev : EngineVersion) : Prop :=
  ev.suffix ≠ "" ∨ (ev.major = 0 ∧ ev.minor = 0 ∧ ev.patch = 0)

/-- The loaded `(major, minor, patch)` is lexicographically strictly newer
than the engine's. -/
def loadedStrictlyNewer (ev : EngineVersion) (ma mi pa : Nat) : Prop :=
  ev.major < ma ∨ (ma = ev.major ∧ ev.minor < mi)
    ∨ (ma = ev.major ∧ mi = ev.minor ∧ ev.patch < pa)

/-- The exact failure condition of `ValidateVersionAgainstAmalgam`, stated
from the parsed version. -/
def validateFailureCondition (ev : EngineVersion) (v : String) : Prop :=
  match parsedVersion v with
  | none => True
  | some (ma, mi, pa) =>
      ¬ isDevBuild ev ∧ (ma ≠ ev.major ∨ loadedStrictlyNewer ev ma mi pa)

/-- The claim's characterisation of a development build: an empty version
suffix plus any zero version field. -/
def claimDevBuildC1 (ev : EngineVersion) : Prop :=
  ev.suffix = "" ∧ (ev.major = 0 ∨ ev.minor = 0 ∨ ev.patch = 0)

/- ## Performance constraints
(`Interpreter::PopulatePerformanceConstraintsFromParams` and
`Interpreter::PopulatePerformanceCounters`, `Interpreter.cpp` lines 814-1052)
-/

/-- A C++ `double` as consumed by `InterpretNodeIntoNumberValue`: either NaN
or a real (rational) value. Every comparison against NaN is false, matching
IEEE 754 semantics relied upon by the code's comments
("nan will fail, so don't need a separate nan check"). -/
inductive DNum where
  | nan : DNum
  | val : ℚ → DNum
deriving DecidableEq

/-- IEEE comparison `c ≤ d` for a double `d`: false when `d` is NaN. -/
def dge (d : DNum) (c : ℚ) : Bool :=
  match d with
  | DNum.nan => false
  | DNum.val q => decide (c ≤ q)

/-- `static_cast<ExecutionCycleCount>(value)` for a nonnegative double:
truncation toward zero. -/
def floorNatD (d : DNum) : Nat :=
  match d with
  | DNum.nan => 0
  | DNum.val q => (Rat.floor q).toNat

/-- A negative or NaN parameter value ("negative/NaN values mean no
constraint"). -/
def dNegOrNaN (d : DNum) : Prop :=
  d = DNum.nan ∨ ∃ q : ℚ, d = DNum.val q ∧ q < 0

/-- The `PerformanceConstraints` block (its fields are listed in the spec
§4.4; the struct itself is declared outside `src/`). A `0` maximum means
"no constraint"; `entityToConstrainFrom` is an entity pointer, modelled as an
optional entity id. -/
structure PerformanceConstraints where
  maxNumExecutionSteps : Nat
  curExecutionStep : Nat
  maxNumAllocatedNodes : Nat
  curNumAllocatedNodesAllocatedToEntities : Nat
  maxOpcodeExecutionDepth : Nat
  constrainMaxContainedEntities : Bool
  maxContainedEntities : Nat
  constrainMaxContainedEntityDepth : Bool
  maxContainedEntityDepth : Nat
  maxEntityIdLength : Nat
  entityToConstrainFrom : Option Nat
deriving DecidableEq

/-- Value parsed for one performance-constraint parameter
(`InterpretNodeIntoNumberValue(params[i])` followed by
`if(value >= threshold) max = static_cast<...>(value)`); `0` when the
parameter is absent or below the threshold. -/
def perfParamVal (params : List DNum) (i : Nat) (threshold : ℚ) : Nat :=
  match params.get? i with
  | some v => if dge v threshold then floorNatD v else 0
  | none => 0

/-- Whether one performance-constraint parameter passed its threshold test
(sets the corresponding `constrain*` flag / `any_constraints`). -/
def perfParamSet (params : List DNum) (i : Nat) (threshold : ℚ) : Bool :=
  match params.get? i with
  | some v => dge v threshold
  | none => false

/-- Embedding of `Interpreter::PopulatePerformanceConstraintsFromParams`
(`Interpreter.cpp` lines 814-917). `hasParentConstraints` stands for
`performanceConstraints != nullptr`; `params` holds the already-evaluated
numeric values of the opcode's parameters. Returns `any_constraints` and the
populated block. Each field mirrors one `if(params.size() > offset_k)` block
of the source; the sequential assignments are written as one record. -/
def populatePerformanceConstraintsFromParams (hasParentConstraints : Bool)
    (params : List DNum) (off : Nat) (includeEntityConstraints : Bool) :
    Bool × PerformanceConstraints :=
  let anyConstraints := hasParentConstraints
    || perfParamSet params (off + 0) 1
    || perfParamSet params (off + 1) 1
    || perfParamSet params (off + 2) 1
    || (includeEntityConstraints
        && (perfParamSet params (off + 3) 0
            || perfParamSet params (off + 4) 0
            || perfParamSet params (off + 5) 1))
  (anyConstraints,
   { maxNumExecutionSteps := perfParamVal params (off + 0) 1
     curExecutionStep := 0
     maxNumAllocatedNodes := perfParamVal params (off + 1) 1
     curNumAllocatedNodesAllocatedToEntities := 0
     maxOpcodeExecutionDepth := perfParamVal params (off + 2) 1
     constrainMaxContainedEntities :=
       includeEntityConstraints && perfParamSet params (off + 3) 0
     maxContainedEntities :=
       if includeEntityConstraints then perfParamVal params (off + 3) 0 else 0
     constrainMaxContainedEntityDepth :=
       includeEntityConstraints && perfParamSet params (off + 4) 0
     maxContainedEntityDepth :=
       if includeEntityConstraints then perfParamVal params (off + 4) 0 else 0
     maxEntityIdLength :=
       if includeEntityConstraints then perfParamVal params (off + 5) 1 else 0
     entityToConstrainFrom := none })

/-- The entity containment structure used by the entity-constraint blocks of
`PopulatePerformanceCounters`. Entities are ids; `container` is
`Entity::GetContainer` (containment is a forest, so containers can be
numbered strictly below their contents); `deepContains` models
`Entity::DoesDeepContainEntity` and `deepCount` the size of
`GetAllDeeplyContainedEntityReferencesGroupedByDepth` — all three live
outside `src/` and are kept abstract. -/
structure EntityWorld where
  container : Nat → Option Nat
  containerLt : ∀ e p, container e = some p → p < e
  deepContains : Nat → Nat → Bool
  deepCount : Nat → Nat

/-- The `for(cur_entity = from; cur_entity != target; cur_entity = GetContainer())`
climb of `PopulatePerformanceCounters` (lines 1031-1034), counting steps. -/
def climbDepth (w : EntityWorld) (target : Nat) (cur : Nat) : Nat :=
  if cur = target then 0
  else
    match h : w.container cur with
    | none => 0
    | some p =>
        have : p < cur := w.containerLt cur p h
        1 + climbDepth w target p
termination_by cur

/-- Modelled from the spec (§4.4 "0 = unlimited" and the `PerformanceConstraints`
accessor declarations, which are outside `src/`): remaining execution steps,
`GetRemainingNumExecutionSteps`. -/
def getRemainingNumExecutionSteps (pc : PerformanceConstraints) : Nat :=
  pc.maxNumExecutionSteps - pc.curExecutionStep

/-- Modelled from the spec: `GetRemainingNumAllocatedNodes(used)`. -/
def getRemainingNumAllocatedNodes (pc : PerformanceConstraints) (used : Nat) : Nat :=
  pc.maxNumAllocatedNodes - used

/-- Modelled from the spec: `GetRemainingOpcodeExecutionDepth(depth)`. -/
def getRemainingOpcodeExecutionDepth (pc : PerformanceConstraints) (depth : Nat) : Nat :=
  pc.maxOpcodeExecutionDepth - depth

/-- The "handle execution steps" block of `PopulatePerformanceCounters`
(lines 924-941). `parent` is the interpreter's `performanceConstraints`
pointer, `child` the block being populated. -/
def ppcSteps : Option PerformanceConstraints → PerformanceConstraints →
    PerformanceConstraints
  | none, child => child
  | some pc, child =>
      if pc.maxNumExecutionSteps ≠ 0 then
        let remaining := getRemainingNumExecutionSteps pc
        if 0 < remaining then
          if child.maxNumExecutionSteps ≠ 0 then
            { child with maxNumExecutionSteps := min child.maxNumExecutionSteps remaining }
          else
            { child with maxNumExecutionSteps := remaining }
        else
          { child with maxNumExecutionSteps := 1, curExecutionStep := 1 }
      else child

/-- The "handle allocated nodes" block (lines 943-960). -/
def ppcNodes : Option PerformanceConstraints → Nat → PerformanceConstraints →
    PerformanceConstraints
  | none, _, child => child
  | some pc, used, child =>
      if pc.maxNumAllocatedNodes ≠ 0 then
        let remaining := getRemainingNumAllocatedNodes pc used
        if 0 < remaining then
          if child.maxNumAllocatedNodes ≠ 0 then
            { child with maxNumAllocatedNodes := min child.maxNumAllocatedNodes remaining }
          else
            { child with maxNumAllocatedNodes := remaining }
        else
          { child with maxNumAllocatedNodes := 1 }
      else child

/-- The allocated-nodes watermark offset (lines 962-971), single-threaded
build: `maxNumAllocatedNodes += GetNumberOfUsedNodes()` whenever the child
block constrains allocations (the `*= GetNumActiveThreads()` factor is under
`#ifdef MULTITHREAD_SUPPORT` and is not modelled). -/
def ppcNodesOffset (used : Nat) (child : PerformanceConstraints) :
    PerformanceConstraints :=
  if child.maxNumAllocatedNodes ≠ 0 then
    { child with maxNumAllocatedNodes := child.maxNumAllocatedNodes + used }
  else child

/-- The "handle opcode execution depth" block (lines 973-990); `stackSize` is
`interpreterNodeStackNodes->size()`. -/
def ppcDepth : Option PerformanceConstraints → Nat → PerformanceConstraints →
    PerformanceConstraints
  | none, _, child => child
  | some pc, stackSize, child =>
      if pc.maxOpcodeExecutionDepth ≠ 0 then
        let remaining := getRemainingOpcodeExecutionDepth pc stackSize
        if 0 < remaining then
          if child.maxOpcodeExecutionDepth ≠ 0 then
            { child with maxOpcodeExecutionDepth := min child.maxOpcodeExecutionDepth remaining }
          else
            { child with maxOpcodeExecutionDepth := remaining }
        else
          { child with maxOpcodeExecutionDepth := 1 }
      else child

/-- The contained-entities block (lines 997-1020). -/
def ppcEntities : Option PerformanceConstraints → EntityWorld →
    PerformanceConstraints → PerformanceConstraints
  | none, _, child => child
  | some pc, w, child =>
      if pc.constrainMaxContainedEntities then
        match pc.entityToConstrainFrom with
        | none => child
        | some pe =>
            let child1 := { child with constrainMaxContainedEntities := true }
            let maxEntities :=
              match child1.entityToConstrainFrom with
              | none => pc.maxContainedEntities
              | some ce =>
                  if w.deepContains pe ce then
                    let containerTotal := w.deepCount pe
                    let containedTotal := w.deepCount ce
                    if pc.maxContainedEntities ≤ containerTotal then 0
                    else pc.maxContainedEntities - (containerTotal - containedTotal)
                  else pc.maxContainedEntities
            { child1 with
                maxContainedEntities := min child1.maxContainedEntities maxEntities }
      else child

/-- The contained-entity-depth block (lines 1022-1042). -/
def ppcEntityDepth : Option PerformanceConstraints → EntityWorld →
    PerformanceConstraints → PerformanceConstraints
  | none, _, child => child
  | some pc, w, child =>
      if pc.constrainMaxContainedEntityDepth then
        match pc.entityToConstrainFrom with
        | none => child
        | some pe =>
            let child1 := { child with constrainMaxContainedEntityDepth := true }
            let maxDepth := pc.maxContainedEntityDepth
            let curDepth :=
              match child1.entityToConstrainFrom with
              | none => 0
              | some ce => if w.deepContains pe ce then climbDepth w pe ce else 0
            if maxDepth ≤ curDepth then
              { child1 with maxContainedEntityDepth := 0 }
            else
              { child1 with
                  maxContainedEntityDepth :=
                    min child1.maxContainedEntityDepth (maxDepth - curDepth) }
      else child

/-- The entity-id-length block (lines 1044-1051), including the write of the
parent's id-length value into `maxNumAllocatedNodes` on the unconstrained
branch. -/
def ppcIdLength : Option PerformanceConstraints → PerformanceConstraints →
    PerformanceConstraints
  | none, child => child
  | some pc, child =>
      if 0 < pc.maxEntityIdLength then
        if 0 < child.maxEntityIdLength then
          { child with
              maxEntityIdLength := min child.maxEntityIdLength pc.maxEntityIdLength }
        else
          { child with maxNumAllocatedNodes := pc.maxEntityIdLength }
      else child

/-- Embedding of `Interpreter::PopulatePerformanceCounters`
(`Interpreter.cpp` lines 919-1052) for a non-null `perf_constraints`,
as the sequential composition of its blocks; it returns early (after the
three numeric-budget blocks) when `entity_to_constrain_from` is null. -/
def ppcEntityPhase (parent : Option PerformanceConstraints) (w : EntityWorld) :
    Option Nat → PerformanceConstraints → PerformanceConstraints
  | none, c3 => c3
  | some e, c3 =>
      ppcIdLength parent (ppcEntityDepth parent w
        (ppcEntities parent w { c3 with entityToConstrainFrom := some e }))

def populatePerformanceCountersCore (parent : Option PerformanceConstraints)
    (used stackSize : Nat) (w : EntityWorld) (ent : Option Nat)
    (child : PerformanceConstraints) : PerformanceConstraints :=
  ppcEntityPhase parent w ent
    (ppcDepth parent stackSize
      (ppcNodesOffset used (ppcNodes parent used (ppcSteps parent child))))

/-- `PopulatePerformanceCounters` including the `perf_constraints == nullptr`
early return (lines 921-922). -/
def populatePerformanceCounters (parent : Option PerformanceConstraints)
    (used stackSize : Nat) (w : EntityWorld) (ent : Option Nat) :
    Option PerformanceConstraints → Option PerformanceConstraints
  | none => none
  | some child => some (populatePerformanceCountersCore parent used stackSize w ent child)

/-- Modelled from the spec (§5: `are_execution_resources_exhausted()` is
polled at every safe point and, once a counter reaches its maximum, the
interpreter short-circuits all remaining work): a run of `n` safe points that
increments a counter only while it is strictly below its maximum. -/
def boundedRun (M : Nat) : Nat → Nat → Nat
  | 0, cur => cur
  | n + 1, cur => if M ≤ cur then cur else boundedRun M n (cur + 1)

/-- An unlimited-aware budget: `0` means "no constraint", i.e. `⊤`. -/
def budgetE (m : Nat) : WithTop Nat :=
  if m = 0 then ⊤ else (m : WithTop Nat)

/-- The parent's remaining execution-step budget, `⊤` when the parent is
absent or unconstrained. -/
def remStepsE : Option PerformanceConstraints → WithTop Nat
  | none => ⊤
  | some pc =>
      if pc.maxNumExecutionSteps ≠ 0 then
        ((getRemainingNumExecutionSteps pc : Nat) : WithTop Nat)
      else ⊤

/-- The parent's remaining allocated-node budget. -/
def remNodesE : Option PerformanceConstraints → Nat → WithTop Nat
  | none, _ => ⊤
  | some pc, used =>
      if pc.maxNumAllocatedNodes ≠ 0 then
        ((getRemainingNumAllocatedNodes pc used : Nat) : WithTop Nat)
      else ⊤

/-- The parent's remaining opcode-execution-depth budget. -/
def remDepthE : Option PerformanceConstraints → Nat → WithTop Nat
  | none, _ => ⊤
  | some pc, stackSize =>
      if pc.maxOpcodeExecutionDepth ≠ 0 then
        ((getRemainingOpcodeExecutionDepth pc stackSize : Nat) : WithTop Nat)
      else ⊤

/-- The child's effective allocated-node allowance: its `maxNumAllocatedNodes`
field is offset by the node-manager watermark `used`, so the number of nodes
the child may see in use is `maxNumAllocatedNodes` and the number it may
newly allocate is `maxNumAllocatedNodes - used`; `⊤` when unconstrained. -/
def effNodes (pc : PerformanceConstraints) (used : Nat) : WithTop Nat :=
  if pc.maxNumAllocatedNodes = 0 then ⊤
  else ((pc.maxNumAllocatedNodes - used : Nat) : WithTop Nat)

/- ## Call-stack symbol lookup
(`Interpreter::GetCallStackSymbolLocation` and
`Interpreter::GetOrCreateCallStackSymbolLocation`, `Interpreter.cpp`
lines 422-480, single-threaded walk bounds) -/

/-- One lexical frame of the call stack: an associative node mapping symbol
ids to child-node slots (a slot holds an `EvaluableNode*`, possibly null). -/
abbrev Frame := List (Nat × Option Nat)

/-- `GetMappedChildNodesReference().find(symbol_sid)`: the slot stored under
`sid`, or `none` when the frame does not contain the symbol. -/
def frameFind (f : Frame) (sid : Nat) : Option (Option Nat) :=
  match f with
  | [] => none
  | (k, v) :: rest => if k = sid then some v else frameFind rest sid

/-- The `for(call_stack_index = highest_index; call_stack_index > 0; ...)`
walk shared by both lookup functions: scan frames from index `i - 1` down to
`0`, returning the slot and frame index of the first hit. -/
def callStackWalk (stack : List Frame) (sid : Nat) : Nat → Option (Option Nat × Nat)
  | 0 => none
  | i + 1 =>
      match frameFind (stack.getD i []) sid with
      | some v => some (v, i)
      | none => callStackWalk stack sid i

/-- Embedding of `Interpreter::GetCallStackSymbolLocation` (lines 422-455):
returns the slot (or null) plus the out-parameter `call_stack_index`, which is
the hit's frame index, or `size - 1` on a miss. -/
def getCallStackSymbolLocation (stack : List Frame) (sid : Nat) :
    Option (Option Nat) × Nat :=
  match callStackWalk stack sid stack.length with
  | some (v, i) => (some v, i)
  | none => (none, stack.length - 1)

/-- Embedding of `Interpreter::GetOrCreateCallStackSymbolLocation`
(lines 457-480): same walk; on a miss the binding is created (with a null
value, `GetOrCreateMappedChildNode`) in the frame at the top of the stack.
Returns the slot, the frame index, and the updated stack. -/
def getOrCreateCallStackSymbolLocation (stack : List Frame) (sid : Nat) :
    (Option Nat × Nat) × List Frame :=
  match callStackWalk stack sid stack.length with
  | some (v, i) => ((v, i), stack)
  | none =>
      let i := stack.length - 1
      let f := stack.getD i []
      ((none, i), stack.set i (f ++ [(sid, none)]))

/- ## Nodes, the node manager, and `InterpretNode` -/

/-- The node kinds the embedded functions distinguish. -/
inductive ENType where
  | list | assoc | number | strKind | symbol | nullKind | trueKind | falseKind | other
deriving DecidableEq

/-- An `EvaluableNode`, restricted to the parts the embedded functions read:
kind, ordered children, mapped children (child ids, possibly null), the
need-cycle-check flag and the concurrency flag. -/
structure ENode where
  ntype : ENType
  orderedChildNodes : List Nat
  mappedChildNodes : List (Nat × Option Nat)
  needCycleCheck : Bool
  concurrency : Bool
deriving DecidableEq

/-- A freshly allocated node of the given kind (`AllocNode(type)`). -/
def mkENode (t : ENType) : ENode :=
  { ntype := t, orderedChildNodes := [], mappedChildNodes := []
    needCycleCheck := false, concurrency := false }

/-- `EvaluableNode::IsNull`: a null pointer or an `ENT_NULL` node. -/
def evaluableNodeIsNull (en : Option (Nat × ENode)) : Bool :=
  match en with
  | none => true
  | some (_, n) => n.ntype = ENType.nullKind

/-- Embedding of `Interpreter::InterpretNode` (`Interpreter.cpp` lines
482-522), restricted to the opcode-stack discipline: the state is
`interpreterNodeStackNodes` (a list of node ids). `handler` stands for the
dispatched opcode function `_opcodes[en->GetType()]` (outside the excerpt),
transforming the stack and producing a result id; `exhausted` is the value of
`AreExecutionResourcesExhausted(true)` at this safe point. `CollectGarbage`
does not alter the opcode stack (the stack is a GC root) and is omitted. -/
def interpretNode (handler : List Nat → List Nat × Option Nat)
    (exhausted : Bool) (en : Option (Nat × ENode)) (stack : List Nat) :
    List Nat × Option Nat :=
  if evaluableNodeIsNull en then (stack, none)
  else
    match en with
    | none => (stack, none)
    | some (i, _) =>
        let stack1 := stack ++ [i]
        if exhausted then (stack1.dropLast, none)
        else
          let hr := handler stack1
          (hr.1.dropLast, hr.2)

/-- The `EvaluableNodeManager` heap: ids below `next` may be allocated;
`node` reads a node by id. -/
structure ENM where
  next : Nat
  node : Nat → Option ENode

/-- A manager heap is well formed when no node lives at or above the
allocation counter. -/
def enmWF (enm : ENM) : Prop :=
  ∀ j, enm.next ≤ j → enm.node j = none

/-- `enm.AllocNode(type)`: returns the fresh id and the grown heap. -/
def enmAlloc (enm : ENM) (t : ENType) : Nat × ENM :=
  (enm.next,
   { next := enm.next + 1
     node := fun j => if j = enm.next then some (mkENode t) else enm.node j })

/-- `enm.AllocNode(existing, ENMM_REMOVE_ALL)`: copies the node (kind,
children and flags; labels and comments, which the copy strips, are not
modelled) into a fresh id. -/
def enmAllocCopy (enm : ENM) (i : Nat) : Nat × ENM :=
  match enm.node i with
  | some n =>
      (enm.next,
       { next := enm.next + 1
         node := fun j => if j = enm.next then some n else enm.node j })
  | none =>
      (enm.next,
       { next := enm.next + 1
         node := fun j => if j = enm.next then some (mkENode ENType.assoc) else enm.node j })

/-- `node->SetNeedCycleCheck(true)` on the node with id `i`. -/
def enmSetNeedCycleCheck (enm : ENM) (i : Nat) : ENM :=
  match enm.node i with
  | some n =>
      { next := enm.next
        node := fun j => if j = i then some { n with needCycleCheck := true } else enm.node j }
  | none => enm

/-- `node->AppendOrderedChildNode(cid)` on the node with id `i`. -/
def enmAppendOrderedChild (enm : ENM) (i : Nat) (cid : Nat) : ENM :=
  match enm.node i with
  | some n =>
      { next := enm.next
        node := fun j =>
          if j = i then some { n with orderedChildNodes := n.orderedChildNodes ++ [cid] }
          else enm.node j }
  | none => enm

/-- `EvaluableNode::IsAssociativeArray` for the node with id `i`. -/
def enmIsAssoc (enm : ENM) (i : Nat) : Bool :=
  match enm.node i with
  | some n => n.ntype = ENType.assoc
  | none => false

/-- The tail of `Interpreter::ConvertArgsToCallStack` (`Interpreter.cpp`
lines 413-419): allocate the list node, append the (normalised) `args` node
as its only ordered child, and set the need-cycle-check flag on both. -/
def convertArgsFinish (aid : Nat) (auniq : Bool) (enm1 : ENM) :
    (Nat × Bool) × ENM :=
  let cs := enmAlloc enm1 ENType.list
  let enm2 := enmAppendOrderedChild cs.2 cs.1 aid
  let enm3 := enmSetNeedCycleCheck enm2 cs.1
  let enm4 := enmSetNeedCycleCheck enm3 aid
  ((cs.1, auniq), enm4)

/-- Embedding of `Interpreter::ConvertArgsToCallStack` (`Interpreter.cpp`
lines 397-420). `args` is an `EvaluableNodeReference`: a possibly-null node
id paired with its uniqueness bit. A null or non-associative `args` is
replaced by a fresh empty assoc; a non-unique assoc is copied
(`ENMM_REMOVE_ALL`); the copy is a fresh allocation and hence unique
(spec §4.3). Then the list node is built around it by
`convertArgsFinish`. -/
def convertArgsToCallStack (args : Option (Nat × Bool)) (enm : ENM) :
    (Nat × Bool) × ENM :=
  match args with
  | none =>
      convertArgsFinish (enmAlloc enm ENType.assoc).1 true (enmAlloc enm ENType.assoc).2
  | some (a, u) =>
      if ¬ enmIsAssoc enm a then
        convertArgsFinish (enmAlloc enm ENType.assoc).1 true (enmAlloc enm ENType.assoc).2
      else if ¬ u then
        convertArgsFinish (enmAllocCopy enm a).1 true (enmAllocCopy enm a).2
      else convertArgsFinish a u enm

/- ## Concurrent fan-out (`Interpreter::InterpretEvaluableNodesConcurrently`,
`Interpreter.cpp` lines 1057-1083) -/

/-- Embedding of `Interpreter::InterpretEvaluableNodesConcurrently`: returns
whether the concurrent path was taken and the list of node ids enqueued as
tasks (one `EnqueueTask` per child, in order, after the batch-enqueue
handshake). `threadsAvailable` is
`threadPool.BeginEnqueueBatchTask().AreThreadsAvailable()`. -/
def interpretEvaluableNodesConcurrently (parent : ENode) (nodes : List Nat)
    (threadsAvailable : Bool) : Bool × List Nat :=
  if ¬ parent.concurrency then (false, [])
  else if nodes.length < 2 then (false, [])
  else if ¬ threadsAvailable then (false, [])
  else (true, nodes)

/- ## Entity loading (`AssetManager::LoadEntityFromResourcePath`,
`AssetManager.cpp` lines 148-252) -/

/-- `EntityExternalInterface::LoadEntityStatus`. -/
structure LoadEntityStatus where
  loaded : Bool
  message : String
  version : String
deriving DecidableEq

/-- The outcome of a load: the returned entity pointer (a handle or null),
the status out-parameter, and whether the `Entity` allocated by this call
(together with the arena it owns, which its destructor releases wholesale,
spec §3.4) is still live when the call returns. -/
structure LoadOutcome where
  entity : Option Nat
  status : LoadEntityStatus
  entityLive : Bool
deriving DecidableEq

/-- External collaborators of `LoadEntityFromResourcePath`, abstracted as
already-determined results (the functions producing them are outside
`src/`): whether `LoadResourcePath` succeeded and its error message; whether
the file type is compressed Amalgam code; whether the metadata file loaded
and parsed to an associative array; its optional `rand_seed` entry and its
optional `version` entry (the `ToString` success flag and the string); the
engine version; and, per contained entity, the recursive load's success flag
and error message. -/
structure LoadInputs where
  codeLoaded : Bool
  codeMessage : String
  isCompressed : Bool
  metadataLoaded : Bool
  metadataIsAssoc : Bool
  randSeedEntry : Option String
  versionEntry : Option (Bool × String)
  engine : EngineVersion
  persistent : Bool
  loadContained : Bool
  containedOutcomes : List (Bool × String)

/-- The contained-entities loop (lines 219-249): the first recursive load
whose status is not `loaded` aborts the whole load with its message. -/
def loadContainedLoop : List (Bool × String) → Option String
  | [] => none
  | (ok, msg) :: rest => if ok then loadContainedLoop rest else some msg

/-- Embedding of `AssetManager::LoadEntityFromResourcePath` (lines 148-252):
allocate a fresh `Entity`; on a code-load failure delete it and return null;
on the compressed path set the root, execute, and return the entity; otherwise
set the root, read the metadata (the `rand_seed` entry only reseeds the
random stream), and if a `version` entry stringifies, validate it — on
failure set the status, delete the entity and return null. Then register
persistence and load contained entities, deleting the entity when a
recursive load fails. -/
def loadEntityFromResourcePath (inp : LoadInputs) : LoadOutcome :=
  if ¬ inp.codeLoaded then
    { entity := none
      status := { loaded := false, message := inp.codeMessage, version := "" }
      entityLive := false }
  else if inp.isCompressed then
    { entity := some 0
      status := { loaded := true, message := "", version := "" }
      entityLive := true }
  else
    let metaAbort : Option LoadOutcome :=
      if inp.metadataLoaded then
        if inp.metadataIsAssoc then
          match inp.versionEntry with
          | some (tostrOk, vstr) =>
              if tostrOk then
                let vres := validateVersionAgainstAmalgam inp.engine vstr
                if ¬ vres.2 then
                  some { entity := none
                         status := { loaded := false, message := vres.1, version := vstr }
                         entityLive := false }
                else none
              else none
          | none => none
        else none
      else none
    match metaAbort with
    | some out => out
    | none =>
        if inp.loadContained then
          match loadContainedLoop inp.containedOutcomes with
          | some msg =>
              { entity := none
                status := { loaded := false, message := msg, version := "" }
                entityLive := false }
          | none =>
              { entity := some 0
                status := { loaded := true, message := "", version := "" }
                entityLive := true }
        else
          { entity := some 0
            status := { loaded := true, message := "", version := "" }
            entityLive := true }

/-! ## Theorems -/

/-- C1 (counterexample): the engine version `1.0.0` with an empty suffix is a
development build according to the claim (empty suffix plus a zero version
field), so by the claim every version check should be skipped and succeed —
yet the code rejects the loaded version string `"0.9.9"` (its major version
is older than the engine's), so the claim is false as stated. -/
theorem validateVersion_claim_counterexample :
    claimDevBuildC1 ⟨1, 0, 0, ""⟩ ∧
      (validateVersionAgainstAmalgam ⟨1, 0, 0, ""⟩ "0.9.9").2 = false := by
  constructor
  · exact ⟨rfl, Or.inr (Or.inl rfl)⟩
  · decide

/-- C1 (amended): `ValidateVersionAgainstAmalgam` fails exactly when the
version string does not have exactly three dot-separated fields before the
`-` suffix (this rejection happens even in development builds), or the build
is not a development build and the loaded major version differs from the
engine's or the loaded `(major, minor, patch)` is strictly newer.
A development build is identified by a NON-empty engine version suffix or by
all three engine version fields being zero. -/
theorem validateVersionAgainstAmalgam_failure_iff (ev : EngineVersion) (v : String) :
    (validateVersionAgainstAmalgam ev v).2 = false ↔ validateFailureCondition ev v := by
  unfold validateVersionAgainstAmalgam validateFailureCondition parsedVersion
  rcases h : versionSplit v with _ | ⟨ms, _ | ⟨ns, _ | ⟨ps, _ | ⟨d, l4⟩⟩⟩⟩
  · simp
  · simp
  · simp
  · dsimp only
    split_ifs with hdev hnew hold
    · constructor
      · intro hf
        exact hf.elim
      · intro hc
        exact (hc.1 hdev).elim
    · constructor
      · intro _
        exact ⟨hdev, Or.inr hnew⟩
      · intro _
        rfl
    · constructor
      · intro _
        exact ⟨hdev, Or.inl (Nat.ne_of_lt hold)⟩
      · intro _
        rfl
    · constructor
      · intro hf
        exact hf.elim
      · intro hc
        exfalso
        rcases hc with ⟨_, hc2⟩
        rcases hc2 with hne | hnn
        · omega
        · unfold loadedStrictlyNewer at hnn
          omega
  · simp

/-! Field-preservation helpers for the stages of `PopulatePerformanceCounters`. -/

theorem ppcSteps_pres (p : Option PerformanceConstraints) (c : PerformanceConstraints) :
    (ppcSteps p c).maxNumAllocatedNodes = c.maxNumAllocatedNodes
    ∧ (ppcSteps p c).curNumAllocatedNodesAllocatedToEntities
        = c.curNumAllocatedNodesAllocatedToEntities
    ∧ (ppcSteps p c).maxOpcodeExecutionDepth = c.maxOpcodeExecutionDepth
    ∧ (ppcSteps p c).maxEntityIdLength = c.maxEntityIdLength := by
  cases p with
  | none => exact ⟨rfl, rfl, rfl, rfl⟩
  | some pc =>
      dsimp only [ppcSteps]
      split_ifs <;> exact ⟨rfl, rfl, rfl, rfl⟩

theorem ppcNodes_pres (p : Option PerformanceConstraints) (used : Nat)
    (c : PerformanceConstraints) :
    (ppcNodes p used c).maxNumExecutionSteps = c.maxNumExecutionSteps
    ∧ (ppcNodes p used c).curExecutionStep = c.curExecutionStep
    ∧ (ppcNodes p used c).curNumAllocatedNodesAllocatedToEntities
        = c.curNumAllocatedNodesAllocatedToEntities
    ∧ (ppcNodes p used c).maxOpcodeExecutionDepth = c.maxOpcodeExecutionDepth
    ∧ (ppcNodes p used c).maxEntityIdLength = c.maxEntityIdLength := by
  cases p with
  | none => exact ⟨rfl, rfl, rfl, rfl, rfl⟩
  | some pc =>
      dsimp only [ppcNodes]
      split_ifs <;> exact ⟨rfl, rfl, rfl, rfl, rfl⟩

theorem ppcNodesOffset_pres (used : Nat) (c : PerformanceConstraints) :
    (ppcNodesOffset used c).maxNumExecutionSteps = c.maxNumExecutionSteps
    ∧ (ppcNodesOffset used c).curExecutionStep = c.curExecutionStep
    ∧ (ppcNodesOffset used c).curNumAllocatedNodesAllocatedToEntities
        = c.curNumAllocatedNodesAllocatedToEntities
    ∧ (ppcNodesOffset used c).maxOpcodeExecutionDepth = c.maxOpcodeExecutionDepth
    ∧ (ppcNodesOffset used c).maxEntityIdLength = c.maxEntityIdLength := by
  dsimp only [ppcNodesOffset]
  split_ifs <;> exact ⟨rfl, rfl, rfl, rfl, rfl⟩

theorem ppcDepth_pres (p : Option PerformanceConstraints) (stackSize : Nat)
    (c : PerformanceConstraints) :
    (ppcDepth p stackSize c).maxNumExecutionSteps = c.maxNumExecutionSteps
    ∧ (ppcDepth p stackSize c).curExecutionStep = c.curExecutionStep
    ∧ (ppcDepth p stackSize c).maxNumAllocatedNodes = c.maxNumAllocatedNodes
    ∧ (ppcDepth p stackSize c).curNumAllocatedNodesAllocatedToEntities
        = c.curNumAllocatedNodesAllocatedToEntities
    ∧ (ppcDepth p stackSize c).maxEntityIdLength = c.maxEntityIdLength := by
  cases p with
  | none => exact ⟨rfl, rfl, rfl, rfl, rfl⟩
  | some pc =>
      dsimp only [ppcDepth]
      split_ifs <;> exact ⟨rfl, rfl, rfl, rfl, rfl⟩

theorem ppcEntities_pres (p : Option PerformanceConstraints) (w : EntityWorld)
    (c : PerformanceConstraints) :
    (ppcEntities p w c).maxNumExecutionSteps = c.maxNumExecutionSteps
    ∧ (ppcEntities p w c).curExecutionStep = c.curExecutionStep
    ∧ (ppcEntities p w c).maxNumAllocatedNodes = c.maxNumAllocatedNodes
    ∧ (ppcEntities p w c).curNumAllocatedNodesAllocatedToEntities
        = c.curNumAllocatedNodesAllocatedToEntities
    ∧ (ppcEntities p w c).maxOpcodeExecutionDepth = c.maxOpcodeExecutionDepth
    ∧ (ppcEntities p w c).maxEntityIdLength = c.maxEntityIdLength := by
  cases p with
  | none => exact ⟨rfl, rfl, rfl, rfl, rfl, rfl⟩
  | some pc =>
      dsimp only [ppcEntities]
      repeat' split
      all_goals exact ⟨rfl, rfl, rfl, rfl, rfl, rfl⟩

theorem ppcEntityDepth_pres (p : Option PerformanceConstraints) (w : EntityWorld)
    (c : PerformanceConstraints) :
    (ppcEntityDepth p w c).maxNumExecutionSteps = c.maxNumExecutionSteps
    ∧ (ppcEntityDepth p w c).curExecutionStep = c.curExecutionStep
    ∧ (ppcEntityDepth p w c).maxNumAllocatedNodes = c.maxNumAllocatedNodes
    ∧ (ppcEntityDepth p w c).curNumAllocatedNodesAllocatedToEntities
        = c.curNumAllocatedNodesAllocatedToEntities
    ∧ (ppcEntityDepth p w c).maxOpcodeExecutionDepth = c.maxOpcodeExecutionDepth
    ∧ (ppcEntityDepth p w c).maxEntityIdLength = c.maxEntityIdLength := by
  cases p with
  | none => exact ⟨rfl, rfl, rfl, rfl, rfl, rfl⟩
  | some pc =>
      dsimp only [ppcEntityDepth]
      repeat' split
      all_goals exact ⟨rfl, rfl, rfl, rfl, rfl, rfl⟩

theorem ppcIdLength_pres (p : Option PerformanceConstraints)
    (c : PerformanceConstraints) :
    (ppcIdLength p c).maxNumExecutionSteps = c.maxNumExecutionSteps
    ∧ (ppcIdLength p c).curExecutionStep = c.curExecutionStep
    ∧ (ppcIdLength p c).curNumAllocatedNodesAllocatedToEntities
        = c.curNumAllocatedNodesAllocatedToEntities
    ∧ (ppcIdLength p c).maxOpcodeExecutionDepth = c.maxOpcodeExecutionDepth := by
  cases p with
  | none => exact ⟨rfl, rfl, rfl, rfl⟩
  | some pc =>
      dsimp only [ppcIdLength]
      split_ifs <;> exact ⟨rfl, rfl, rfl, rfl⟩

theorem ppcIdLength_nodes_pres (p : Option PerformanceConstraints)
    (c : PerformanceConstraints)
    (h : c.maxEntityIdLength ≠ 0 ∨ ∀ pc, p = some pc → pc.maxEntityIdLength = 0) :
    (ppcIdLength p c).maxNumAllocatedNodes = c.maxNumAllocatedNodes := by
  cases p with
  | none => rfl
  | some pc =>
      dsimp only [ppcIdLength]
      rcases h with h | h
      · split_ifs with h1 h2
        · rfl
        · exact absurd (Nat.pos_of_ne_zero h) (fun hp => h2 hp)
        · rfl
      · rw [if_neg]
        rw [h pc rfl]
        exact Nat.lt_irrefl 0

/-! Budget algebra for the numeric-constraint stages. -/

theorem budgetE_of_ne (m : Nat) (hm : m ≠ 0) : budgetE m = (m : WithTop Nat) := by
  unfold budgetE
  exact if_neg hm

theorem budget_min_pattern (cm rem : Nat) (hrem : 0 < rem) :
    budgetE (if cm ≠ 0 then min cm rem else rem)
      = min (budgetE cm) ((rem : Nat) : WithTop Nat) := by
  by_cases hcm : cm = 0
  · rw [if_neg (fun hne => hne hcm)]
    rw [budgetE_of_ne rem (Nat.pos_iff_ne_zero.mp hrem)]
    subst hcm
    rw [show budgetE 0 = ⊤ from rfl]
    rw [min_eq_right le_top]
  · rw [if_pos hcm]
    have hmin : min cm rem ≠ 0 := by
      have := Nat.pos_of_ne_zero hcm
      omega
    rw [budgetE_of_ne _ hmin, budgetE_of_ne cm hcm]
    exact WithTop.coe_min cm rem

theorem ppcSteps_budget (p : Option PerformanceConstraints)
    (c : PerformanceConstraints) (h : 0 < remStepsE p) :
    budgetE (ppcSteps p c).maxNumExecutionSteps
      = min (budgetE c.maxNumExecutionSteps) (remStepsE p) := by
  cases p with
  | none =>
      rw [show remStepsE none = ⊤ from rfl]
      rw [min_eq_left le_top]
      rfl
  | some pc =>
      by_cases hc : pc.maxNumExecutionSteps = 0
      · have hrem : remStepsE (some pc) = ⊤ := by
          dsimp only [remStepsE]
          exact if_neg (fun hne => hne hc)
        rw [hrem, min_eq_left le_top]
        dsimp only [ppcSteps]
        rw [if_neg (fun hne => hne hc)]
      · have hrem : remStepsE (some pc)
            = ((getRemainingNumExecutionSteps pc : Nat) : WithTop Nat) := by
          dsimp only [remStepsE]
          exact if_pos hc
        rw [hrem] at h ⊢
        have hrpos : 0 < getRemainingNumExecutionSteps pc := by
          exact_mod_cast h
        have hfield : (ppcSteps (some pc) c).maxNumExecutionSteps
            = if c.maxNumExecutionSteps ≠ 0 then
                min c.maxNumExecutionSteps (getRemainingNumExecutionSteps pc)
              else getRemainingNumExecutionSteps pc := by
          dsimp only [ppcSteps]
          rw [if_pos hc, if_pos hrpos]
          by_cases hcc : c.maxNumExecutionSteps ≠ 0
          · rw [if_pos hcc, if_pos hcc]
          · rw [if_neg hcc, if_neg hcc]
        rw [hfield]
        exact budget_min_pattern _ _ hrpos

theorem ppcDepth_budget (p : Option PerformanceConstraints) (stackSize : Nat)
    (c : PerformanceConstraints) (h : 0 < remDepthE p stackSize) :
    budgetE (ppcDepth p stackSize c).maxOpcodeExecutionDepth
      = min (budgetE c.maxOpcodeExecutionDepth) (remDepthE p stackSize) := by
  cases p with
  | none =>
      rw [show remDepthE none stackSize = ⊤ from rfl]
      rw [min_eq_left le_top]
      rfl
  | some pc =>
      by_cases hc : pc.maxOpcodeExecutionDepth = 0
      · have hrem : remDepthE (some pc) stackSize = ⊤ := by
          dsimp only [remDepthE]
          exact if_neg (fun hne => hne hc)
        rw [hrem, min_eq_left le_top]
        dsimp only [ppcDepth]
        rw [if_neg (fun hne => hne hc)]
      · have hrem : remDepthE (some pc) stackSize
            = ((getRemainingOpcodeExecutionDepth pc stackSize : Nat) : WithTop Nat) := by
          dsimp only [remDepthE]
          exact if_pos hc
        rw [hrem] at h ⊢
        have hrpos : 0 < getRemainingOpcodeExecutionDepth pc stackSize := by
          exact_mod_cast h
        have hfield : (ppcDepth (some pc) stackSize c).maxOpcodeExecutionDepth
            = if c.maxOpcodeExecutionDepth ≠ 0 then
                min c.maxOpcodeExecutionDepth (getRemainingOpcodeExecutionDepth pc stackSize)
              else getRemainingOpcodeExecutionDepth pc stackSize := by
          dsimp only [ppcDepth]
          rw [if_pos hc, if_pos hrpos]
          by_cases hcc : c.maxOpcodeExecutionDepth ≠ 0
          · rw [if_pos hcc, if_pos hcc]
          · rw [if_neg hcc, if_neg hcc]
        rw [hfield]
        exact budget_min_pattern _ _ hrpos

theorem ppcNodes_eff (p : Option PerformanceConstraints) (used : Nat)
    (c : PerformanceConstraints) (h : 0 < remNodesE p used) :
    effNodes (ppcNodesOffset used (ppcNodes p used c)) used
      = min (budgetE c.maxNumAllocatedNodes) (remNodesE p used) := by
  have hoffset : ∀ d : PerformanceConstraints,
      effNodes (ppcNodesOffset used d) used = budgetE d.maxNumAllocatedNodes := by
    intro d
    by_cases hd : d.maxNumAllocatedNodes = 0
    · dsimp only [ppcNodesOffset]
      rw [if_neg (fun hne => hne hd)]
      dsimp only [effNodes, budgetE]
      rw [if_pos hd, if_pos hd]
    · dsimp only [ppcNodesOffset]
      rw [if_pos hd]
      dsimp only [effNodes, budgetE]
      have h1 : ¬ (d.maxNumAllocatedNodes + used = 0) := by omega
      rw [if_neg h1, if_neg hd, Nat.add_sub_cancel]
  rw [hoffset]
  cases p with
  | none =>
      rw [show remNodesE none used = ⊤ from rfl]
      rw [min_eq_left le_top]
      rfl
  | some pc =>
      by_cases hc : pc.maxNumAllocatedNodes = 0
      · have hrem : remNodesE (some pc) used = ⊤ := by
          dsimp only [remNodesE]
          exact if_neg (fun hne => hne hc)
        rw [hrem, min_eq_left le_top]
        dsimp only [ppcNodes]
        rw [if_neg (fun hne => hne hc)]
      · have hrem : remNodesE (some pc) used
            = ((getRemainingNumAllocatedNodes pc used : Nat) : WithTop Nat) := by
          dsimp only [remNodesE]
          exact if_pos hc
        rw [hrem] at h ⊢
        have hrpos : 0 < getRemainingNumAllocatedNodes pc used := by
          exact_mod_cast h
        have hfield : (ppcNodes (some pc) used c).maxNumAllocatedNodes
            = if c.maxNumAllocatedNodes ≠ 0 then
                min c.maxNumAllocatedNodes (getRemainingNumAllocatedNodes pc used)
              else getRemainingNumAllocatedNodes pc used := by
          dsimp only [ppcNodes]
          rw [if_pos hc, if_pos hrpos]
          by_cases hcc : c.maxNumAllocatedNodes ≠ 0
          · rw [if_pos hcc, if_pos hcc]
          · rw [if_neg hcc, if_neg hcc]
        rw [hfield]
        exact budget_min_pattern _ _ hrpos

theorem boundedRun_le_max (M : Nat) : ∀ n cur : Nat, boundedRun M n cur ≤ max M cur := by
  intro n
  induction n with
  | zero => intro cur; exact le_max_right _ _
  | succ k ih =>
      intro cur
      show (if M ≤ cur then cur else boundedRun M k (cur + 1)) ≤ max M cur
      by_cases h : M ≤ cur
      · rw [if_pos h]
        exact le_max_right _ _
      · rw [if_neg h]
        have := ih (cur + 1)
        omega

theorem ppcEntityPhase_fields (parent : Option PerformanceConstraints)
    (w : EntityWorld) (ent : Option Nat) (c3 : PerformanceConstraints)
    (idOk : ent = none ∨ c3.maxEntityIdLength ≠ 0 ∨
      ∀ pc, parent = some pc → pc.maxEntityIdLength = 0) :
    (ppcEntityPhase parent w ent c3).maxNumExecutionSteps = c3.maxNumExecutionSteps
    ∧ (ppcEntityPhase parent w ent c3).maxNumAllocatedNodes = c3.maxNumAllocatedNodes
    ∧ (ppcEntityPhase parent w ent c3).maxOpcodeExecutionDepth = c3.maxOpcodeExecutionDepth := by
  cases ent with
  | none => exact ⟨rfl, rfl, rfl⟩
  | some e =>
      dsimp only [ppcEntityPhase]
      have pe := ppcEntities_pres parent w { c3 with entityToConstrainFrom := some e }
      have ped := ppcEntityDepth_pres parent w
        (ppcEntities parent w { c3 with entityToConstrainFrom := some e })
      have pil := ppcIdLength_pres parent
        (ppcEntityDepth parent w
          (ppcEntities parent w { c3 with entityToConstrainFrom := some e }))
      have hidlen : (ppcEntityDepth parent w
          (ppcEntities parent w { c3 with entityToConstrainFrom := some e })).maxEntityIdLength
            = c3.maxEntityIdLength := by
        rw [ped.2.2.2.2.2, pe.2.2.2.2.2]
      have hnodes := ppcIdLength_nodes_pres parent
        (ppcEntityDepth parent w
          (ppcEntities parent w { c3 with entityToConstrainFrom := some e }))
        (by
          rcases idOk with hde | hde | hde
          · exact absurd hde (by simp)
          · exact Or.inl (by rw [hidlen]; exact hde)
          · exact Or.inr hde)
      refine ⟨?_, ?_, ?_⟩
      · rw [pil.1, ped.1, pe.1]
      · rw [hnodes, ped.2.2.1, pe.2.2.1]
      · rw [pil.2.2.2, ped.2.2.2.2.1, pe.2.2.2.2.1]

/-- C2 (amended): provided the known entity-id-length slip does not fire
(no entity to constrain from, or the child constrains id length, or the
parent does not), each numeric budget the child block ends up with is the
minimum — with `0` read as "unlimited", i.e. `⊤` — of the child's requested
budget and the parent's remaining budget: literally for execution steps and
opcode depth, and through the used-node watermark offset for allocated nodes
(`effNodes`). Moreover a run of safe points that advances a counter only
while it is strictly below its maximum never drives any of the three
counters past its maximum, so an evaluation under the child block never
exceeds that minimum. -/
theorem populatePerformanceCounters_budget_min
    (parent : Option PerformanceConstraints) (child : PerformanceConstraints)
    (used stackSize : Nat) (w : EntityWorld) (ent : Option Nat)
    (hs : 0 < remStepsE parent)
    (hn : 0 < remNodesE parent used)
    (hd : 0 < remDepthE parent stackSize)
    (hid : ent = none ∨ child.maxEntityIdLength ≠ 0 ∨
      ∀ pc, parent = some pc → pc.maxEntityIdLength = 0) :
    budgetE (populatePerformanceCountersCore parent used stackSize w ent child).maxNumExecutionSteps
        = min (budgetE child.maxNumExecutionSteps) (remStepsE parent)
    ∧ effNodes (populatePerformanceCountersCore parent used stackSize w ent child) used
        = min (budgetE child.maxNumAllocatedNodes) (remNodesE parent used)
    ∧ budgetE (populatePerformanceCountersCore parent used stackSize w ent child).maxOpcodeExecutionDepth
        = min (budgetE child.maxOpcodeExecutionDepth) (remDepthE parent stackSize)
    ∧ (∀ n, boundedRun (populatePerformanceCountersCore parent used stackSize w ent child).maxNumExecutionSteps n 0
        ≤ (populatePerformanceCountersCore parent used stackSize w ent child).maxNumExecutionSteps)
    ∧ (∀ n, boundedRun (populatePerformanceCountersCore parent used stackSize w ent child).maxNumAllocatedNodes n used - used
        ≤ (populatePerformanceCountersCore parent used stackSize w ent child).maxNumAllocatedNodes - used)
    ∧ (∀ n, boundedRun (populatePerformanceCountersCore parent used stackSize w ent child).maxOpcodeExecutionDepth n 0
        ≤ (populatePerformanceCountersCore parent used stackSize w ent child).maxOpcodeExecutionDepth) := by
  have ps := ppcSteps_pres parent child
  have pn := ppcNodes_pres parent used (ppcSteps parent child)
  have po := ppcNodesOffset_pres used (ppcNodes parent used (ppcSteps parent child))
  have pd := ppcDepth_pres parent stackSize
    (ppcNodesOffset used (ppcNodes parent used (ppcSteps parent child)))
  have hidc3 : (ppcDepth parent stackSize
      (ppcNodesOffset used (ppcNodes parent used (ppcSteps parent child)))).maxEntityIdLength
        = child.maxEntityIdLength := by
    rw [pd.2.2.2.2, po.2.2.2.2, pn.2.2.2.2, ps.2.2.2]
  obtain ⟨hph_s, hph_n, hph_d⟩ := ppcEntityPhase_fields parent w ent
    (ppcDepth parent stackSize
      (ppcNodesOffset used (ppcNodes parent used (ppcSteps parent child))))
    (by
      rcases hid with hde | hde | hde
      · exact Or.inl hde
      · exact Or.inr (Or.inl (by rw [hidc3]; exact hde))
      · exact Or.inr (Or.inr hde))
  dsimp only [populatePerformanceCountersCore]
  refine ⟨?_, ?_, ?_, ?_, ?_, ?_⟩
  · rw [hph_s, pd.1, po.1, pn.1]
    exact ppcSteps_budget parent child hs
  · have heff : effNodes (ppcEntityPhase parent w ent
        (ppcDepth parent stackSize
          (ppcNodesOffset used (ppcNodes parent used (ppcSteps parent child))))) used
        = effNodes (ppcNodesOffset used (ppcNodes parent used (ppcSteps parent child))) used := by
      unfold effNodes
      rw [hph_n, pd.2.2.1]
    rw [heff, show child.maxNumAllocatedNodes = (ppcSteps parent child).maxNumAllocatedNodes from (ps.1).symm]
    exact ppcNodes_eff parent used (ppcSteps parent child) hn
  · rw [hph_d]
    rw [show child.maxOpcodeExecutionDepth
      = (ppcNodesOffset used (ppcNodes parent used (ppcSteps parent child))).maxOpcodeExecutionDepth by
        rw [po.2.2.2.1, pn.2.2.2.1, ps.2.2.1]]
    exact ppcDepth_budget parent stackSize
      (ppcNodesOffset used (ppcNodes parent used (ppcSteps parent child))) hd
  · intro n
    have := boundedRun_le_max
      (ppcEntityPhase parent w ent
        (ppcDepth parent stackSize
          (ppcNodesOffset used (ppcNodes parent used (ppcSteps parent child))))).maxNumExecutionSteps n 0
    omega
  · intro n
    have := boundedRun_le_max
      (ppcEntityPhase parent w ent
        (ppcDepth parent stackSize
          (ppcNodesOffset used (ppcNodes parent used (ppcSteps parent child))))).maxNumAllocatedNodes n used
    omega
  · intro n
    have := boundedRun_le_max
      (ppcEntityPhase parent w ent
        (ppcDepth parent stackSize
          (ppcNodesOffset used (ppcNodes parent used (ppcSteps parent child))))).maxOpcodeExecutionDepth n 0
    omega

/-- C2 (witness): a concrete instance of the budget-minimum theorem — parent
block with 7 remaining steps, 15 remaining nodes, 5 remaining depth, child
requesting 100 steps, unlimited nodes, 4 depth. -/
theorem populatePerformanceCounters_budget_min_witness :
    budgetE (populatePerformanceCountersCore
        (some ⟨10, 3, 20, 0, 7, false, 0, false, 0, 0, none⟩) 5 2
        ⟨fun _ => none, fun _ _ h => Option.noConfusion h, fun _ _ => false, fun _ => 0⟩
        none ⟨100, 0, 0, 0, 4, false, 0, false, 0, 0, none⟩).maxNumExecutionSteps
      = min (budgetE (⟨100, 0, 0, 0, 4, false, 0, false, 0, 0, none⟩
          : PerformanceConstraints).maxNumExecutionSteps)
        (remStepsE (some ⟨10, 3, 20, 0, 7, false, 0, false, 0, 0, none⟩)) :=
  (populatePerformanceCounters_budget_min
    (some ⟨10, 3, 20, 0, 7, false, 0, false, 0, 0, none⟩)
    ⟨100, 0, 0, 0, 4, false, 0, false, 0, 0, none⟩ 5 2
    ⟨fun _ => none, fun _ _ h => Option.noConfusion h, fun _ _ => false, fun _ => 0⟩
    none (by decide) (by decide) (by decide) (Or.inl rfl)).1

/-- C2 (counterexample): with a parent block that constrains allocated nodes
(max 20, 5 used, so 15 remaining) and also constrains entity-id length to 3,
a child that requests no budgets, and a non-null entity to constrain from,
the claim's "allocated-nodes budget = min(requested, remaining)" fails: the
final `maxNumAllocatedNodes` field is the parent's id-length value 3, not the
minimum 15. -/
theorem populatePerformanceCounters_claim_counterexample :
    (populatePerformanceCountersCore
        (some ⟨0, 0, 20, 0, 0, false, 0, false, 0, 3, none⟩) 5 0
        ⟨fun _ => none, fun _ _ h => Option.noConfusion h, fun _ _ => false, fun _ => 0⟩
        (some 0) ⟨0, 0, 0, 0, 0, false, 0, false, 0, 0, none⟩).maxNumAllocatedNodes = 3
    ∧ min (budgetE (⟨0, 0, 0, 0, 0, false, 0, false, 0, 0, none⟩
          : PerformanceConstraints).maxNumAllocatedNodes)
        (remNodesE (some ⟨0, 0, 20, 0, 0, false, 0, false, 0, 3, none⟩) 5)
        = ((15 : Nat) : WithTop Nat)
    ∧ effNodes (populatePerformanceCountersCore
        (some ⟨0, 0, 20, 0, 0, false, 0, false, 0, 3, none⟩) 5 0
        ⟨fun _ => none, fun _ _ h => Option.noConfusion h, fun _ _ => false, fun _ => 0⟩
        (some 0) ⟨0, 0, 0, 0, 0, false, 0, false, 0, 0, none⟩) 5
      ≠ min (budgetE (⟨0, 0, 0, 0, 0, false, 0, false, 0, 0, none⟩
          : PerformanceConstraints).maxNumAllocatedNodes)
        (remNodesE (some ⟨0, 0, 20, 0, 0, false, 0, false, 0, 3, none⟩) 5) := by
  refine ⟨rfl, rfl, ?_⟩
  intro hcontra
  have h1 : effNodes (populatePerformanceCountersCore
      (some ⟨0, 0, 20, 0, 0, false, 0, false, 0, 3, none⟩) 5 0
      ⟨fun _ => none, fun _ _ h => Option.noConfusion h, fun _ _ => false, fun _ => 0⟩
      (some 0) ⟨0, 0, 0, 0, 0, false, 0, false, 0, 0, none⟩) 5
      = ((0 : Nat) : WithTop Nat) := rfl
  have h2 : min (budgetE (⟨0, 0, 0, 0, 0, false, 0, false, 0, 0, none⟩
        : PerformanceConstraints).maxNumAllocatedNodes)
      (remNodesE (some ⟨0, 0, 20, 0, 0, false, 0, false, 0, 3, none⟩) 5)
      = ((15 : Nat) : WithTop Nat) := rfl
  rw [h1, h2] at hcontra
  exact absurd (WithTop.coe_injective hcontra) (by omega)

/-- C3 (counterexample): parent block with all three budgets exhausted
(5 steps max and 5 used, 5 nodes max with 5 nodes in use, depth 3 with stack
depth 3): the claim says the child's allocated-node maximum becomes 1 with
its counter at 1, but the code sets the maximum to `1 + used = 6` and leaves
the counter at 0. -/
theorem populatePerformanceCounters_exhausted_claim_counterexample :
    ¬ ((populatePerformanceCountersCore
          (some ⟨5, 5, 5, 0, 3, false, 0, false, 0, 0, none⟩) 5 3
          ⟨fun _ => none, fun _ _ h => Option.noConfusion h, fun _ _ => false, fun _ => 0⟩
          none ⟨0, 0, 0, 0, 0, false, 0, false, 0, 0, none⟩).maxNumAllocatedNodes = 1
        ∧ (populatePerformanceCountersCore
          (some ⟨5, 5, 5, 0, 3, false, 0, false, 0, 0, none⟩) 5 3
          ⟨fun _ => none, fun _ _ h => Option.noConfusion h, fun _ _ => false, fun _ => 0⟩
          none ⟨0, 0, 0, 0, 0, false, 0, false, 0, 0, none⟩).curNumAllocatedNodesAllocatedToEntities = 1) := by
  intro hcontra
  exact absurd hcontra.1 (by decide)

/-- C3 (amended): when every parent budget is exhausted (zero remaining
steps, nodes and depth) and there is no entity to constrain from, the child
block is made to abort on first use, but the three resources are treated
differently: execution steps get maximum 1 with the counter already at 1;
allocated nodes get maximum 1, which the watermark offset then turns into
`1 + used` (so exactly the `used` nodes already in the manager plus one are
tolerated — an effective remaining allowance of 1) while the node counter
field is left untouched; opcode depth gets maximum 1 and has no counter
field at all. -/
theorem populatePerformanceCounters_exhausted
    (pc child : PerformanceConstraints) (used stackSize : Nat) (w : EntityWorld)
    (hs0 : pc.maxNumExecutionSteps ≠ 0)
    (hs1 : getRemainingNumExecutionSteps pc = 0)
    (hn0 : pc.maxNumAllocatedNodes ≠ 0)
    (hn1 : getRemainingNumAllocatedNodes pc used = 0)
    (hd0 : pc.maxOpcodeExecutionDepth ≠ 0)
    (hd1 : getRemainingOpcodeExecutionDepth pc stackSize = 0) :
    (populatePerformanceCountersCore (some pc) used stackSize w none child).maxNumExecutionSteps = 1
    ∧ (populatePerformanceCountersCore (some pc) used stackSize w none child).curExecutionStep = 1
    ∧ (populatePerformanceCountersCore (some pc) used stackSize w none child).maxNumAllocatedNodes = 1 + used
    ∧ (populatePerformanceCountersCore (some pc) used stackSize w none child).curNumAllocatedNodesAllocatedToEntities
        = child.curNumAllocatedNodesAllocatedToEntities
    ∧ (populatePerformanceCountersCore (some pc) used stackSize w none child).maxOpcodeExecutionDepth = 1 := by
  have ps := ppcSteps_pres (some pc) child
  have pn := ppcNodes_pres (some pc) used (ppcSteps (some pc) child)
  have po := ppcNodesOffset_pres used (ppcNodes (some pc) used (ppcSteps (some pc) child))
  have pd := ppcDepth_pres (some pc) stackSize
    (ppcNodesOffset used (ppcNodes (some pc) used (ppcSteps (some pc) child)))
  have h1s : (ppcSteps (some pc) child).maxNumExecutionSteps = 1 := by
    dsimp only [ppcSteps]
    rw [if_pos hs0, if_neg (by omega)]
  have h1c : (ppcSteps (some pc) child).curExecutionStep = 1 := by
    dsimp only [ppcSteps]
    rw [if_pos hs0, if_neg (by omega)]
  have h2 : (ppcNodes (some pc) used (ppcSteps (some pc) child)).maxNumAllocatedNodes = 1 := by
    dsimp only [ppcNodes]
    rw [if_pos hn0, if_neg (by omega)]
  have h3 : (ppcNodesOffset used (ppcNodes (some pc) used (ppcSteps (some pc) child))).maxNumAllocatedNodes
      = 1 + used := by
    dsimp only [ppcNodesOffset]
    rw [if_pos (by rw [h2]; exact one_ne_zero)]
    rw [h2]
  have h4 : (ppcDepth (some pc) stackSize
      (ppcNodesOffset used (ppcNodes (some pc) used (ppcSteps (some pc) child)))).maxOpcodeExecutionDepth
        = 1 := by
    dsimp only [ppcDepth]
    rw [if_pos hd0, if_neg (by omega)]
  dsimp only [populatePerformanceCountersCore, ppcEntityPhase]
  refine ⟨?_, ?_, ?_, ?_, ?_⟩
  · rw [pd.1, po.1, pn.1, h1s]
  · rw [pd.2.1, po.2.1, pn.2.1, h1c]
  · rw [pd.2.2.1, h3]
  · rw [pd.2.2.2.1, po.2.2.1, pn.2.2.1, ps.2.1]
  · exact h4

/-- C3 (witness): the amended exhausted-budget behaviour at the concrete
counterexample input — the child gets steps max 1 and counter 1, allocated
nodes max `1 + 5 = 6` with its counter unchanged at 0, and depth max 1. -/
theorem populatePerformanceCounters_exhausted_witness :
    (populatePerformanceCountersCore
        (some ⟨5, 5, 5, 0, 3, false, 0, false, 0, 0, none⟩) 5 3
        ⟨fun _ => none, fun _ _ h => Option.noConfusion h, fun _ _ => false, fun _ => 0⟩
        none ⟨0, 0, 0, 0, 0, false, 0, false, 0, 0, none⟩).maxNumExecutionSteps = 1
    ∧ (populatePerformanceCountersCore
        (some ⟨5, 5, 5, 0, 3, false, 0, false, 0, 0, none⟩) 5 3
        ⟨fun _ => none, fun _ _ h => Option.noConfusion h, fun _ _ => false, fun _ => 0⟩
        none ⟨0, 0, 0, 0, 0, false, 0, false, 0, 0, none⟩).curExecutionStep = 1
    ∧ (populatePerformanceCountersCore
        (some ⟨5, 5, 5, 0, 3, false, 0, false, 0, 0, none⟩) 5 3
        ⟨fun _ => none, fun _ _ h => Option.noConfusion h, fun _ _ => false, fun _ => 0⟩
        none ⟨0, 0, 0, 0, 0, false, 0, false, 0, 0, none⟩).maxNumAllocatedNodes = 1 + 5
    ∧ (populatePerformanceCountersCore
        (some ⟨5, 5, 5, 0, 3, false, 0, false, 0, 0, none⟩) 5 3
        ⟨fun _ => none, fun _ _ h => Option.noConfusion h, fun _ _ => false, fun _ => 0⟩
        none ⟨0, 0, 0, 0, 0, false, 0, false, 0, 0, none⟩).curNumAllocatedNodesAllocatedToEntities
        = (⟨0, 0, 0, 0, 0, false, 0, false, 0, 0, none⟩
          : PerformanceConstraints).curNumAllocatedNodesAllocatedToEntities
    ∧ (populatePerformanceCountersCore
        (some ⟨5, 5, 5, 0, 3, false, 0, false, 0, 0, none⟩) 5 3
        ⟨fun _ => none, fun _ _ h => Option.noConfusion h, fun _ _ => false, fun _ => 0⟩
        none ⟨0, 0, 0, 0, 0, false, 0, false, 0, 0, none⟩).maxOpcodeExecutionDepth = 1 :=
  populatePerformanceCounters_exhausted
    ⟨5, 5, 5, 0, 3, false, 0, false, 0, 0, none⟩
    ⟨0, 0, 0, 0, 0, false, 0, false, 0, 0, none⟩ 5 3
    ⟨fun _ => none, fun _ _ h => Option.noConfusion h, fun _ _ => false, fun _ => 0⟩
    (by decide) (by decide) (by decide) (by decide) (by decide) (by decide)

/-- C4: when the parent constrains entity-id length while the child block
carries no id-length constraint (and an entity to constrain from is given),
`PopulatePerformanceCounters` writes the parent's id-length value into the
child's allocated-nodes budget `maxNumAllocatedNodes` — overwriting whatever
the allocated-nodes stage computed — and leaves the child's own
`maxEntityIdLength` budget at 0. -/
theorem populatePerformanceCounters_idLength_bug
    (pc child : PerformanceConstraints) (used stackSize : Nat) (w : EntityWorld) (e : Nat)
    (hp : pc.maxEntityIdLength ≠ 0) (hc : child.maxEntityIdLength = 0) :
    (populatePerformanceCountersCore (some pc) used stackSize w (some e) child).maxNumAllocatedNodes
        = pc.maxEntityIdLength
    ∧ (populatePerformanceCountersCore (some pc) used stackSize w (some e) child).maxEntityIdLength
        = 0 := by
  have ps := ppcSteps_pres (some pc) child
  have pn := ppcNodes_pres (some pc) used (ppcSteps (some pc) child)
  have po := ppcNodesOffset_pres used (ppcNodes (some pc) used (ppcSteps (some pc) child))
  have pd := ppcDepth_pres (some pc) stackSize
    (ppcNodesOffset used (ppcNodes (some pc) used (ppcSteps (some pc) child)))
  dsimp only [populatePerformanceCountersCore, ppcEntityPhase]
  have pe := ppcEntities_pres (some pc)
    ⟨w.container, w.containerLt, w.deepContains, w.deepCount⟩
    { ppcDepth (some pc) stackSize
        (ppcNodesOffset used (ppcNodes (some pc) used (ppcSteps (some pc) child)))
      with entityToConstrainFrom := some e }
  have hXid : (ppcEntityDepth (some pc) w
      (ppcEntities (some pc) w
        { ppcDepth (some pc) stackSize
            (ppcNodesOffset used (ppcNodes (some pc) used (ppcSteps (some pc) child)))
          with entityToConstrainFrom := some e })).maxEntityIdLength = 0 := by
    rw [(ppcEntityDepth_pres (some pc) w _).2.2.2.2.2,
        (ppcEntities_pres (some pc) w _).2.2.2.2.2]
    show (ppcDepth (some pc) stackSize
      (ppcNodesOffset used (ppcNodes (some pc) used (ppcSteps (some pc) child)))).maxEntityIdLength = 0
    rw [pd.2.2.2.2, po.2.2.2.2, pn.2.2.2.2, ps.2.2.2]
    exact hc
  dsimp only [ppcIdLength]
  rw [if_pos (Nat.pos_of_ne_zero hp), if_neg (by rw [hXid]; omega)]
  exact ⟨rfl, hXid⟩

/-- C4 (witness): concrete instance — parent id-length budget 7, child with
no id-length constraint, entity id 0: the child ends with
`maxNumAllocatedNodes = 7` and `maxEntityIdLength = 0`. -/
theorem populatePerformanceCounters_idLength_bug_witness :
    (populatePerformanceCountersCore
        (some ⟨0, 0, 0, 0, 0, false, 0, false, 0, 7, none⟩) 2 0
        ⟨fun _ => none, fun _ _ h => Option.noConfusion h, fun _ _ => false, fun _ => 0⟩
        (some 0) ⟨0, 0, 0, 0, 0, false, 0, false, 0, 0, none⟩).maxNumAllocatedNodes
        = (⟨0, 0, 0, 0, 0, false, 0, false, 0, 7, none⟩
          : PerformanceConstraints).maxEntityIdLength
    ∧ (populatePerformanceCountersCore
        (some ⟨0, 0, 0, 0, 0, false, 0, false, 0, 7, none⟩) 2 0
        ⟨fun _ => none, fun _ _ h => Option.noConfusion h, fun _ _ => false, fun _ => 0⟩
        (some 0) ⟨0, 0, 0, 0, 0, false, 0, false, 0, 0, none⟩).maxEntityIdLength = 0 :=
  populatePerformanceCounters_idLength_bug
    ⟨0, 0, 0, 0, 0, false, 0, false, 0, 7, none⟩
    ⟨0, 0, 0, 0, 0, false, 0, false, 0, 0, none⟩ 2 0
    ⟨fun _ => none, fun _ _ h => Option.noConfusion h, fun _ _ => false, fun _ => 0⟩
    0 (by decide) (by decide)

theorem callStackWalk_spec (stack : List Frame) (sid : Nat) (m : Nat) :
    (∀ v i, callStackWalk stack sid m = some (v, i) →
      i < m ∧ frameFind (stack.getD i []) sid = some v
        ∧ ∀ j, i < j → j < m → frameFind (stack.getD j []) sid = none)
    ∧ (callStackWalk stack sid m = none →
        ∀ j, j < m → frameFind (stack.getD j []) sid = none) := by
  induction m with
  | zero =>
      constructor
      · intro v i h
        exact absurd h (by simp [callStackWalk])
      · intro _ j hj
        omega
  | succ k ih =>
      constructor
      · intro v i h
        dsimp only [callStackWalk] at h
        cases hf : frameFind (stack.getD k []) sid with
        | some v0 =>
            rw [hf] at h
            simp only [Option.some.injEq, Prod.mk.injEq] at h
            obtain ⟨hv, hi⟩ := h
            subst hv
            subst hi
            refine ⟨by omega, hf, ?_⟩
            intro j hij hjk
            omega
        | none =>
            rw [hf] at h
            obtain ⟨h1, h2, h3⟩ := ih.1 v i h
            refine ⟨by omega, h2, ?_⟩
            intro j hij hjk
            by_cases hj : j = k
            · rw [hj]
              exact hf
            · exact h3 j hij (by omega)
      · intro h j hj
        dsimp only [callStackWalk] at h
        cases hf : frameFind (stack.getD k []) sid with
        | some v0 =>
            rw [hf] at h
            exact absurd h (by simp)
        | none =>
            rw [hf] at h
            by_cases hjk : j = k
            · rw [hjk]
              exact hf
            · exact ih.2 h j (by omega)

/-- C5: `GetCallStackSymbolLocation` walks the call-stack frames from newest
(highest index) to oldest and returns the slot stored under `sid` in the
first frame whose map contains it, together with that frame's index — no
newer frame contains `sid`. On a hit, `GetOrCreateCallStackSymbolLocation`
returns exactly the same slot, index and unchanged stack; on a miss (and a
non-empty stack) it creates the binding, with a null value, in the topmost
frame and returns that new slot at index `size - 1`. -/
theorem getCallStackSymbolLocation_spec (stack : List Frame) (sid : Nat) :
    (∀ v i, getCallStackSymbolLocation stack sid = (some v, i) →
        i < stack.length
        ∧ frameFind (stack.getD i []) sid = some v
        ∧ (∀ j, i < j → j < stack.length → frameFind (stack.getD j []) sid = none)
        ∧ getOrCreateCallStackSymbolLocation stack sid = ((v, i), stack))
    ∧ (stack ≠ [] → (getCallStackSymbolLocation stack sid).1 = none →
        (∀ j, j < stack.length → frameFind (stack.getD j []) sid = none)
        ∧ getOrCreateCallStackSymbolLocation stack sid
          = ((none, stack.length - 1),
             stack.set (stack.length - 1)
               (stack.getD (stack.length - 1) [] ++ [(sid, none)]))) := by
  cases hw : callStackWalk stack sid stack.length with
  | some p =>
      obtain ⟨v0, i0⟩ := p
      constructor
      · intro v i heq
        unfold getCallStackSymbolLocation at heq
        rw [hw] at heq
        simp only [Prod.mk.injEq, Option.some.injEq] at heq
        obtain ⟨hv, hi⟩ := heq
        subst hv
        subst hi
        obtain ⟨h1, h2, h3⟩ := (callStackWalk_spec stack sid stack.length).1 v0 i0 hw
        refine ⟨h1, h2, h3, ?_⟩
        unfold getOrCreateCallStackSymbolLocation
        rw [hw]
      · intro _ hnone
        unfold getCallStackSymbolLocation at hnone
        rw [hw] at hnone
        exact absurd hnone (by simp)
  | none =>
      constructor
      · intro v i heq
        unfold getCallStackSymbolLocation at heq
        rw [hw] at heq
        simp at heq
      · intro _ _
        refine ⟨(callStackWalk_spec stack sid stack.length).2 hw, ?_⟩
        unfold getOrCreateCallStackSymbolLocation
        rw [hw]

/-- C5 (witness): in the stack `[[(5, slot 1)], [(5, slot 2)], [(7, null)]]`
the symbol `5` resolves to the newer binding (value slot 2, frame index 1),
and get-or-create returns the same slot without touching the stack. -/
theorem getCallStackSymbolLocation_witness :
    frameFind (([[(5, some 1)], [(5, some 2)], [(7, none)]] : List Frame).getD 1 []) 5
      = some (some 2)
    ∧ getOrCreateCallStackSymbolLocation
        ([[(5, some 1)], [(5, some 2)], [(7, none)]] : List Frame) 5
      = ((some 2, 1), ([[(5, some 1)], [(5, some 2)], [(7, none)]] : List Frame)) := by
  have h := (getCallStackSymbolLocation_spec
    ([[(5, some 1)], [(5, some 2)], [(7, none)]] : List Frame) 5).1
    (some 2) 1 (by decide)
  exact ⟨h.2.1, h.2.2.2⟩

/-- C6: `InterpretNode` leaves the opcode stack's depth unchanged on every
path — a null node returns immediately without pushing; otherwise the node is
pushed, and both the resource-exhaustion early return and the normal
dispatch path pop before returning (assuming the dispatched opcode handler
preserves the stack depth, which is outside the excerpt). -/
theorem interpretNode_stack_depth (handler : List Nat → List Nat × Option Nat)
    (exhausted : Bool) (en : Option (Nat × ENode)) (stack : List Nat)
    (hh : ∀ s, (handler s).1.length = s.length) :
    (interpretNode handler exhausted en stack).1.length = stack.length := by
  unfold interpretNode
  by_cases hnull : evaluableNodeIsNull en
  · rw [if_pos hnull]
  · rw [if_neg hnull]
    cases en with
    | none => rfl
    | some p =>
        obtain ⟨i, nd⟩ := p
        dsimp only
        by_cases hex : exhausted
        · rw [if_pos hex]
          dsimp only
          rw [List.dropLast_concat]
        · rw [if_neg hex]
          dsimp only
          rw [List.length_dropLast, hh (stack ++ [i]), List.length_append]
          simp

/-- C6 (witness): a concrete run through the normal dispatch path with a
stack-preserving handler on the two-entry stack `[1, 2]`. -/
theorem interpretNode_stack_depth_witness :
    (interpretNode (fun s => (s, none)) false
        (some (7, mkENode ENType.number)) [1, 2]).1.length = ([1, 2] : List Nat).length :=
  interpretNode_stack_depth (fun s => (s, none)) false
    (some (7, mkENode ENType.number)) [1, 2] (fun _ => rfl)

theorem dge_false_of_negOrNaN (d : DNum) (c : ℚ) (hc : 0 ≤ c)
    (h : dNegOrNaN d) : dge d c = false := by
  rcases h with h | ⟨q, hq, hneg⟩
  · rw [h]
    rfl
  · rw [hq]
    dsimp only [dge]
    exact decide_eq_false (not_le.mpr (lt_of_lt_of_le hneg hc))

theorem perfParamVal_congr (p1 p2 : List DNum) (i : Nat) (t : ℚ)
    (h : p1.get? i = p2.get? i) : perfParamVal p1 i t = perfParamVal p2 i t := by
  unfold perfParamVal
  rw [h]

theorem perfParamSet_congr (p1 p2 : List DNum) (i : Nat) (t : ℚ)
    (h : p1.get? i = p2.get? i) : perfParamSet p1 i t = perfParamSet p2 i t := by
  unfold perfParamSet
  rw [h]

theorem perfParamVal_zero (p : List DNum) (i : Nat) (t : ℚ) (d : DNum)
    (hget : p.get? i = some d) (hc : 0 ≤ t) (h : dNegOrNaN d) :
    perfParamVal p i t = 0 := by
  unfold perfParamVal
  rw [hget]
  show (if dge d t = true then floorNatD d else 0) = 0
  rw [dge_false_of_negOrNaN d t hc h]
  rfl

theorem perfParamSet_false (p : List DNum) (i : Nat) (t : ℚ) (d : DNum)
    (hget : p.get? i = some d) (hc : 0 ≤ t) (h : dNegOrNaN d) :
    perfParamSet p i t = false := by
  unfold perfParamSet
  rw [hget]
  show dge d t = false
  exact dge_false_of_negOrNaN d t hc h

/-- C8: `PopulatePerformanceConstraintsFromParams` reads at most the six
parameters at offsets `off .. off+5` (only the first three when entity
constraints are excluded) — two parameter lists agreeing there produce
identical results — and any parameter whose evaluated value is negative or
NaN leaves the corresponding constraint unset (a zero maximum, and a false
`constrain*` flag for the contained-entity constraints). -/
theorem populatePerformanceConstraintsFromParams_spec
    (hpc : Bool) (off : Nat) (p1 p2 p : List DNum) (d : DNum) :
    ((∀ k, k < 6 → p1.get? (off + k) = p2.get? (off + k)) →
        populatePerformanceConstraintsFromParams hpc p1 off true
          = populatePerformanceConstraintsFromParams hpc p2 off true)
    ∧ ((∀ k, k < 3 → p1.get? (off + k) = p2.get? (off + k)) →
        populatePerformanceConstraintsFromParams hpc p1 off false
          = populatePerformanceConstraintsFromParams hpc p2 off false)
    ∧ (∀ inc : Bool,
        (p.get? (off + 0) = some d → dNegOrNaN d →
          (populatePerformanceConstraintsFromParams hpc p off inc).2.maxNumExecutionSteps = 0)
        ∧ (p.get? (off + 1) = some d → dNegOrNaN d →
          (populatePerformanceConstraintsFromParams hpc p off inc).2.maxNumAllocatedNodes = 0)
        ∧ (p.get? (off + 2) = some d → dNegOrNaN d →
          (populatePerformanceConstraintsFromParams hpc p off inc).2.maxOpcodeExecutionDepth = 0)
        ∧ (p.get? (off + 3) = some d → dNegOrNaN d →
          (populatePerformanceConstraintsFromParams hpc p off inc).2.constrainMaxContainedEntities = false
          ∧ (populatePerformanceConstraintsFromParams hpc p off inc).2.maxContainedEntities = 0)
        ∧ (p.get? (off + 4) = some d → dNegOrNaN d →
          (populatePerformanceConstraintsFromParams hpc p off inc).2.constrainMaxContainedEntityDepth = false
          ∧ (populatePerformanceConstraintsFromParams hpc p off inc).2.maxContainedEntityDepth = 0)
        ∧ (p.get? (off + 5) = some d → dNegOrNaN d →
          (populatePerformanceConstraintsFromParams hpc p off inc).2.maxEntityIdLength = 0)) := by
  refine ⟨?_, ?_, ?_⟩
  · intro hag
    unfold populatePerformanceConstraintsFromParams
    rw [perfParamVal_congr p1 p2 (off + 0) 1 (hag 0 (by omega)),
        perfParamVal_congr p1 p2 (off + 1) 1 (hag 1 (by omega)),
        perfParamVal_congr p1 p2 (off + 2) 1 (hag 2 (by omega)),
        perfParamVal_congr p1 p2 (off + 3) 0 (hag 3 (by omega)),
        perfParamVal_congr p1 p2 (off + 4) 0 (hag 4 (by omega)),
        perfParamVal_congr p1 p2 (off + 5) 1 (hag 5 (by omega)),
        perfParamSet_congr p1 p2 (off + 0) 1 (hag 0 (by omega)),
        perfParamSet_congr p1 p2 (off + 1) 1 (hag 1 (by omega)),
        perfParamSet_congr p1 p2 (off + 2) 1 (hag 2 (by omega)),
        perfParamSet_congr p1 p2 (off + 3) 0 (hag 3 (by omega)),
        perfParamSet_congr p1 p2 (off + 4) 0 (hag 4 (by omega)),
        perfParamSet_congr p1 p2 (off + 5) 1 (hag 5 (by omega))]
  · intro hag
    unfold populatePerformanceConstraintsFromParams
    simp only [Bool.false_and, Bool.false_eq_true, if_false, Bool.or_false]
    rw [perfParamVal_congr p1 p2 (off + 0) 1 (hag 0 (by omega)),
        perfParamVal_congr p1 p2 (off + 1) 1 (hag 1 (by omega)),
        perfParamVal_congr p1 p2 (off + 2) 1 (hag 2 (by omega)),
        perfParamSet_congr p1 p2 (off + 0) 1 (hag 0 (by omega)),
        perfParamSet_congr p1 p2 (off + 1) 1 (hag 1 (by omega)),
        perfParamSet_congr p1 p2 (off + 2) 1 (hag 2 (by omega))]
  · intro inc
    refine ⟨?_, ?_, ?_, ?_, ?_, ?_⟩
    · intro hget hneg
      unfold populatePerformanceConstraintsFromParams
      dsimp only
      rw [perfParamVal_zero p (off + 0) 1 d hget (by norm_num) hneg]
    · intro hget hneg
      unfold populatePerformanceConstraintsFromParams
      dsimp only
      rw [perfParamVal_zero p (off + 1) 1 d hget (by norm_num) hneg]
    · intro hget hneg
      unfold populatePerformanceConstraintsFromParams
      dsimp only
      rw [perfParamVal_zero p (off + 2) 1 d hget (by norm_num) hneg]
    · intro hget hneg
      unfold populatePerformanceConstraintsFromParams
      dsimp only
      constructor
      · rw [perfParamSet_false p (off + 3) 0 d hget (by norm_num) hneg]
        exact Bool.and_false inc
      · rw [perfParamVal_zero p (off + 3) 0 d hget (by norm_num) hneg]
        exact ite_self 0
    · intro hget hneg
      unfold populatePerformanceConstraintsFromParams
      dsimp only
      constructor
      · rw [perfParamSet_false p (off + 4) 0 d hget (by norm_num) hneg]
        exact Bool.and_false inc
      · rw [perfParamVal_zero p (off + 4) 0 d hget (by norm_num) hneg]
        exact ite_self 0
    · intro hget hneg
      unfold populatePerformanceConstraintsFromParams
      dsimp only
      rw [perfParamVal_zero p (off + 5) 1 d hget (by norm_num) hneg]
      exact ite_self 0

/-- C8 (witness): two parameter lists that agree on the six read positions
give identical blocks even though one has a seventh entry, and a negative
first parameter leaves the execution-step budget unset. -/
theorem populatePerformanceConstraintsFromParams_witness :
    populatePerformanceConstraintsFromParams false
        [DNum.val 5, DNum.nan, DNum.val 2, DNum.val 0, DNum.val 1, DNum.val 3] 0 true
      = populatePerformanceConstraintsFromParams false
        [DNum.val 5, DNum.nan, DNum.val 2, DNum.val 0, DNum.val 1, DNum.val 3, DNum.val 99] 0 true
    ∧ (populatePerformanceConstraintsFromParams false [DNum.val (-1)] 0 true).2.maxNumExecutionSteps
        = 0 := by
  constructor
  · exact (populatePerformanceConstraintsFromParams_spec false 0
      [DNum.val 5, DNum.nan, DNum.val 2, DNum.val 0, DNum.val 1, DNum.val 3]
      [DNum.val 5, DNum.nan, DNum.val 2, DNum.val 0, DNum.val 1, DNum.val 3, DNum.val 99]
      [] DNum.nan).1 (by decide)
  · exact ((populatePerformanceConstraintsFromParams_spec false 0 [] []
      [DNum.val (-1)] (DNum.val (-1))).2.2 true).1 rfl
      (Or.inr ⟨-1, rfl, by norm_num⟩)

/-- C9: `InterpretEvaluableNodesConcurrently` schedules either one task per
child node — all of them, in order — or none at all: it returns `false`
having enqueued nothing exactly when the parent node does not request
concurrency, there are fewer than two child nodes, or the thread pool
reports no threads available. -/
theorem interpretEvaluableNodesConcurrently_spec (parent : ENode)
    (nodes : List Nat) (threadsAvailable : Bool) :
    ((interpretEvaluableNodesConcurrently parent nodes threadsAvailable).1 = false
        ↔ (parent.concurrency = false ∨ nodes.length < 2 ∨ threadsAvailable = false))
    ∧ ((interpretEvaluableNodesConcurrently parent nodes threadsAvailable).1 = false →
        (interpretEvaluableNodesConcurrently parent nodes threadsAvailable).2 = [])
    ∧ ((interpretEvaluableNodesConcurrently parent nodes threadsAvailable).1 = true →
        (interpretEvaluableNodesConcurrently parent nodes threadsAvailable).2 = nodes) := by
  unfold interpretEvaluableNodesConcurrently
  by_cases h1 : parent.concurrency = true
  · rw [if_neg (not_not_intro h1)]
    by_cases h2 : nodes.length < 2
    · rw [if_pos h2]
      exact ⟨⟨fun _ => Or.inr (Or.inl h2), fun _ => rfl⟩, fun _ => rfl,
        fun hc => Bool.noConfusion hc⟩
    · rw [if_neg h2]
      by_cases h3 : threadsAvailable = true
      · rw [if_neg (not_not_intro h3)]
        refine ⟨⟨fun hc => Bool.noConfusion hc, fun hor => ?_⟩,
          fun hc => Bool.noConfusion hc, fun _ => rfl⟩
        exfalso
        rcases hor with h | h | h
        · rw [h1] at h
          exact Bool.noConfusion h
        · exact h2 h
        · rw [h3] at h
          exact Bool.noConfusion h
      · rw [if_pos h3]
        have hta : threadsAvailable = false := by
          cases hcc : threadsAvailable
          · rfl
          · exact absurd hcc h3
        exact ⟨⟨fun _ => Or.inr (Or.inr hta), fun _ => rfl⟩, fun _ => rfl,
          fun hc => Bool.noConfusion hc⟩
  · rw [if_pos h1]
    have hfalse : parent.concurrency = false := by
      cases hcc : parent.concurrency
      · rfl
      · exact absurd hcc h1
    exact ⟨⟨fun _ => Or.inl hfalse, fun _ => rfl⟩, fun _ => rfl,
      fun hc => Bool.noConfusion hc⟩

/-- C9 (witness): a parent requesting concurrency over three children with
threads available schedules exactly the three tasks, in order. -/
theorem interpretEvaluableNodesConcurrently_witness :
    (interpretEvaluableNodesConcurrently
        { mkENode ENType.list with concurrency := true } [4, 5, 6] true).2 = [4, 5, 6] :=
  (interpretEvaluableNodesConcurrently_spec
    { mkENode ENType.list with concurrency := true } [4, 5, 6] true).2.2 (by decide)

/-! Heap-update helpers for the `ConvertArgsToCallStack` proof. -/

theorem enmAlloc_node_new (enm : ENM) (t : ENType) :
    (enmAlloc enm t).2.node enm.next = some (mkENode t) := by
  dsimp only [enmAlloc]
  rw [if_pos rfl]

theorem enmAlloc_node_other (enm : ENM) (t : ENType) (j : Nat) (h : j ≠ enm.next) :
    (enmAlloc enm t).2.node j = enm.node j := by
  dsimp only [enmAlloc]
  rw [if_neg h]

theorem enmAllocCopy_fst (enm : ENM) (a : Nat) : (enmAllocCopy enm a).1 = enm.next := by
  unfold enmAllocCopy
  cases h : enm.node a <;> rfl

theorem enmAllocCopy_next (enm : ENM) (a : Nat) :
    (enmAllocCopy enm a).2.next = enm.next + 1 := by
  unfold enmAllocCopy
  cases h : enm.node a <;> rfl

theorem enmAllocCopy_node_new (enm : ENM) (a : Nat) (n : ENode)
    (h : enm.node a = some n) :
    (enmAllocCopy enm a).2.node enm.next = some n := by
  unfold enmAllocCopy
  rw [h]
  show (if enm.next = enm.next then some n else enm.node enm.next) = some n
  rw [if_pos rfl]

theorem enmSetNCC_nodefun (enm : ENM) (i : Nat) (n : ENode) (h : enm.node i = some n) :
    (enmSetNeedCycleCheck enm i).node
      = fun j => if j = i then some { n with needCycleCheck := true } else enm.node j := by
  unfold enmSetNeedCycleCheck
  rw [h]

theorem enmAppend_nodefun (enm : ENM) (i : Nat) (cid : Nat) (n : ENode)
    (h : enm.node i = some n) :
    (enmAppendOrderedChild enm i cid).node
      = fun j =>
          if j = i then some { n with orderedChildNodes := n.orderedChildNodes ++ [cid] }
          else enm.node j := by
  unfold enmAppendOrderedChild
  rw [h]

theorem enmIsAssoc_elim (enm : ENM) (a : Nat) (h : enmIsAssoc enm a = true) :
    ∃ n, enm.node a = some n ∧ n.ntype = ENType.assoc := by
  unfold enmIsAssoc at h
  cases hn : enm.node a with
  | none =>
      rw [hn] at h
      exact absurd h (by simp)
  | some n =>
      rw [hn] at h
      refine ⟨n, rfl, ?_⟩
      have : decide (n.ntype = ENType.assoc) = true := h
      exact of_decide_eq_true this

theorem convertArgsFinish_spec (aid : Nat) (auniq : Bool) (enm1 : ENM) (an : ENode)
    (ha : enm1.node aid = some an) (hne : aid ≠ enm1.next) :
    (convertArgsFinish aid auniq enm1).1.1 = enm1.next
    ∧ (convertArgsFinish aid auniq enm1).2.node enm1.next
        = some ⟨ENType.list, [aid], [], true, false⟩
    ∧ (convertArgsFinish aid auniq enm1).2.node aid
        = some { an with needCycleCheck := true } := by
  have hne' : enm1.next ≠ aid := fun hx => hne hx.symm
  have h_e1_new : (enmAlloc enm1 ENType.list).2.node enm1.next = some (mkENode ENType.list) :=
    enmAlloc_node_new enm1 ENType.list
  have h_e1_aid : (enmAlloc enm1 ENType.list).2.node aid = some an := by
    rw [enmAlloc_node_other enm1 ENType.list aid hne]
    exact ha
  have h2fun := enmAppend_nodefun (enmAlloc enm1 ENType.list).2 enm1.next aid
    (mkENode ENType.list) h_e1_new
  have h2_cs : (enmAppendOrderedChild (enmAlloc enm1 ENType.list).2 enm1.next aid).node enm1.next
      = some ⟨ENType.list, [aid], [], false, false⟩ := by
    rw [h2fun]
    dsimp only
    rw [if_pos rfl]
    rfl
  have h2_aid : (enmAppendOrderedChild (enmAlloc enm1 ENType.list).2 enm1.next aid).node aid
      = some an := by
    rw [h2fun]
    dsimp only
    rw [if_neg hne]
    exact h_e1_aid
  have h3fun := enmSetNCC_nodefun
    (enmAppendOrderedChild (enmAlloc enm1 ENType.list).2 enm1.next aid) enm1.next
    ⟨ENType.list, [aid], [], false, false⟩ h2_cs
  have h3_cs : (enmSetNeedCycleCheck
      (enmAppendOrderedChild (enmAlloc enm1 ENType.list).2 enm1.next aid) enm1.next).node enm1.next
      = some ⟨ENType.list, [aid], [], true, false⟩ := by
    rw [h3fun]
    dsimp only
    rw [if_pos rfl]
  have h3_aid : (enmSetNeedCycleCheck
      (enmAppendOrderedChild (enmAlloc enm1 ENType.list).2 enm1.next aid) enm1.next).node aid
      = some an := by
    rw [h3fun]
    dsimp only
    rw [if_neg hne]
    exact h2_aid
  have h4fun := enmSetNCC_nodefun
    (enmSetNeedCycleCheck
      (enmAppendOrderedChild (enmAlloc enm1 ENType.list).2 enm1.next aid) enm1.next) aid
    an h3_aid
  refine ⟨rfl, ?_, ?_⟩
  · show (enmSetNeedCycleCheck
        (enmSetNeedCycleCheck
          (enmAppendOrderedChild (enmAlloc enm1 ENType.list).2
            (enmAlloc enm1 ENType.list).1 aid) (enmAlloc enm1 ENType.list).1)
        aid).node enm1.next = some ⟨ENType.list, [aid], [], true, false⟩
    rw [show (enmAlloc enm1 ENType.list).1 = enm1.next from rfl]
    rw [h4fun]
    dsimp only
    rw [if_neg hne']
    exact h3_cs
  · show (enmSetNeedCycleCheck
        (enmSetNeedCycleCheck
          (enmAppendOrderedChild (enmAlloc enm1 ENType.list).2
            (enmAlloc enm1 ENType.list).1 aid) (enmAlloc enm1 ENType.list).1)
        aid).node aid = some { an with needCycleCheck := true }
    rw [show (enmAlloc enm1 ENType.list).1 = enm1.next from rfl]
    rw [h4fun]
    dsimp only
    rw [if_pos rfl]

/-- C10: for every `args` reference — null, non-associative, unique assoc or
non-unique assoc — `ConvertArgsToCallStack` returns a list node with exactly
one ordered child; that child is an associative-array node (the original
`args` node when it was a unique assoc, otherwise a freshly allocated empty
assoc or a fresh copy of the non-unique assoc), and both the list node and
the child carry the need-cycle-check flag. -/
theorem convertArgsToCallStack_spec (args : Option (Nat × Bool)) (enm : ENM)
    (hwf : enmWF enm) :
    ∃ c csn cn,
      (convertArgsToCallStack args enm).2.node (convertArgsToCallStack args enm).1.1 = some csn
      ∧ csn.ntype = ENType.list
      ∧ csn.orderedChildNodes = [c]
      ∧ csn.needCycleCheck = true
      ∧ (convertArgsToCallStack args enm).2.node c = some cn
      ∧ cn.ntype = ENType.assoc
      ∧ cn.needCycleCheck = true
      ∧ (match args with
         | some au =>
             if enmIsAssoc enm au.1 then
               (if au.2 then c = au.1
                else c = enm.next
                  ∧ ∃ an, enm.node au.1 = some an
                      ∧ cn.mappedChildNodes = an.mappedChildNodes)
             else c = enm.next ∧ cn.mappedChildNodes = []
         | none => c = enm.next ∧ cn.mappedChildNodes = []) := by
  cases args with
  | none =>
      dsimp only [convertArgsToCallStack]
      obtain ⟨h1, h2, h3⟩ := convertArgsFinish_spec (enmAlloc enm ENType.assoc).1 true
        (enmAlloc enm ENType.assoc).2 (mkENode ENType.assoc)
        (enmAlloc_node_new enm ENType.assoc)
        (by dsimp only [enmAlloc]; omega)
      refine ⟨(enmAlloc enm ENType.assoc).1,
        ⟨ENType.list, [(enmAlloc enm ENType.assoc).1], [], true, false⟩,
        { mkENode ENType.assoc with needCycleCheck := true },
        ?_, rfl, rfl, rfl, h3, rfl, rfl, ⟨rfl, rfl⟩⟩
      rw [h1]
      exact h2
  | some au =>
      obtain ⟨a, u⟩ := au
      by_cases hassoc : enmIsAssoc enm a = true
      · obtain ⟨n0, hn0, hn0t⟩ := enmIsAssoc_elim enm a hassoc
        have hne : a ≠ enm.next := by
          intro hx
          rw [hx, hwf enm.next (le_refl _)] at hn0
          exact Option.noConfusion hn0
        by_cases hu : u = true
        · subst hu
          dsimp only [convertArgsToCallStack]
          rw [if_neg (not_not_intro hassoc), if_neg (not_not_intro rfl)]
          obtain ⟨h1, h2, h3⟩ := convertArgsFinish_spec a true enm n0 hn0 hne
          refine ⟨a, ⟨ENType.list, [a], [], true, false⟩,
            { n0 with needCycleCheck := true },
            ?_, rfl, rfl, rfl, h3, hn0t, rfl, ?_⟩
          · rw [h1]
            exact h2
          · dsimp only
            rw [if_pos hassoc, if_pos rfl]
        · have hu' : u = false := by
            cases hcc : u
            · rfl
            · exact absurd hcc hu
          subst hu'
          dsimp only [convertArgsToCallStack]
          rw [if_neg (not_not_intro hassoc), if_pos (by simp)]
          have hcopy_at : (enmAllocCopy enm a).2.node ((enmAllocCopy enm a).1) = some n0 := by
            rw [enmAllocCopy_fst]
            exact enmAllocCopy_node_new enm a n0 hn0
          have hcne : (enmAllocCopy enm a).1 ≠ (enmAllocCopy enm a).2.next := by
            rw [enmAllocCopy_fst, enmAllocCopy_next]
            omega
          obtain ⟨h1, h2, h3⟩ := convertArgsFinish_spec (enmAllocCopy enm a).1 true
            (enmAllocCopy enm a).2 n0 hcopy_at hcne
          refine ⟨(enmAllocCopy enm a).1,
            ⟨ENType.list, [(enmAllocCopy enm a).1], [], true, false⟩,
            { n0 with needCycleCheck := true },
            ?_, rfl, rfl, rfl, h3, hn0t, rfl, ?_⟩
          · rw [h1]
            exact h2
          · dsimp only
            rw [if_pos hassoc, if_neg (by simp)]
            exact ⟨enmAllocCopy_fst enm a, n0, hn0, rfl⟩
      · dsimp only [convertArgsToCallStack]
        rw [if_pos hassoc]
        obtain ⟨h1, h2, h3⟩ := convertArgsFinish_spec (enmAlloc enm ENType.assoc).1 true
          (enmAlloc enm ENType.assoc).2 (mkENode ENType.assoc)
          (enmAlloc_node_new enm ENType.assoc)
          (by dsimp only [enmAlloc]; omega)
        refine ⟨(enmAlloc enm ENType.assoc).1,
          ⟨ENType.list, [(enmAlloc enm ENType.assoc).1], [], true, false⟩,
          { mkENode ENType.assoc with needCycleCheck := true },
          ?_, rfl, rfl, rfl, h3, rfl, rfl, ?_⟩
        · rw [h1]
          exact h2
        · dsimp only
          rw [if_neg hassoc]
          exact ⟨rfl, rfl⟩

/-- C10 (witness): converting a null `args` reference on the empty manager
yields the guaranteed shape — a cycle-checked list node whose single ordered
child is a fresh, empty, cycle-checked assoc node. -/
theorem convertArgsToCallStack_witness :
    ∃ c csn cn,
      (convertArgsToCallStack none ⟨0, fun _ => none⟩).2.node
          (convertArgsToCallStack none ⟨0, fun _ => none⟩).1.1 = some csn
      ∧ csn.ntype = ENType.list
      ∧ csn.orderedChildNodes = [c]
      ∧ csn.needCycleCheck = true
      ∧ (convertArgsToCallStack none ⟨0, fun _ => none⟩).2.node c = some cn
      ∧ cn.ntype = ENType.assoc
      ∧ cn.needCycleCheck = true
      ∧ (match (none : Option (Nat × Bool)) with
         | some au =>
             if enmIsAssoc ⟨0, fun _ => none⟩ au.1 then
               (if au.2 then c = au.1
                else c = (⟨0, fun _ => none⟩ : ENM).next
                  ∧ ∃ an, (⟨0, fun _ => none⟩ : ENM).node au.1 = some an
                      ∧ cn.mappedChildNodes = an.mappedChildNodes)
             else c = (⟨0, fun _ => none⟩ : ENM).next ∧ cn.mappedChildNodes = []
         | none => c = (⟨0, fun _ => none⟩ : ENM).next ∧ cn.mappedChildNodes = []) :=
  convertArgsToCallStack_spec none ⟨0, fun _ => none⟩ (fun _ _ => rfl)

/-- C7: when `LoadEntityFromResourcePath` reaches the metadata version check
(code loaded, uncompressed file type, metadata loaded as an associative array
with a stringifiable `version` entry) and `ValidateVersionAgainstAmalgam`
rejects the version, the load returns no entity (a null pointer), a
non-loaded status carrying the validation error message and the offending
version string, and the freshly allocated entity (with its arena, which its
destructor releases wholesale) is destroyed — no partial entity remains. -/
theorem loadEntityFromResourcePath_versionFail (inp : LoadInputs) (v : String)
    (h1 : inp.codeLoaded = true) (h2 : inp.isCompressed = false)
    (h3 : inp.metadataLoaded = true) (h4 : inp.metadataIsAssoc = true)
    (h5 : inp.versionEntry = some (true, v))
    (h6 : (validateVersionAgainstAmalgam inp.engine v).2 = false) :
    loadEntityFromResourcePath inp =
      { entity := none
        status := { loaded := false
                    message := (validateVersionAgainstAmalgam inp.engine v).1
                    version := v }
        entityLive := false } := by
  unfold loadEntityFromResourcePath
  rw [if_neg (fun hc => hc h1), if_neg (by rw [h2]; exact Bool.false_ne_true)]
  rw [if_pos h3, if_pos h4, h5]
  dsimp only
  rw [if_pos rfl, if_pos (by rw [h6]; exact Bool.false_ne_true)]

/-- C7 (witness): a concrete failing load — engine `1.0.0` with empty suffix,
metadata version `"0.9.9"` — returns a null entity, a non-loaded status with
the validation message and version, and no live entity. -/
theorem loadEntityFromResourcePath_versionFail_witness :
    loadEntityFromResourcePath
        ⟨true, "", false, true, true, none, some (true, "0.9.9"),
          ⟨1, 0, 0, ""⟩, false, false, []⟩ =
      { entity := none
        status := { loaded := false
                    message := (validateVersionAgainstAmalgam ⟨1, 0, 0, ""⟩ "0.9.9").1
                    version := "0.9.9" }
        entityLive := false } :=
  loadEntityFromResourcePath_versionFail
    ⟨true, "", false, true, true, none, some (true, "0.9.9"),
      ⟨1, 0, 0, ""⟩, false, false, []⟩ "0.9.9"
    rfl rfl rfl rfl rfl (by decide)

end AmalgamSpec
